import Mathlib

/-!
# Verification of the logfire span-processor wrapper

Shallow embedding of `src/logfire/_internal/exporters/processor_wrapper.py`:
the `MainSpanProcessorWrapper` delegating span processor and its five
end-time rewrite rules (ASGI send/receive tweak, SQLAlchemy connect demotion,
HTTP span normalization, DB-statement summarization, level/status
reconciliation), together with the parts of the Python standard library the
rules call into (`urllib.parse.urlparse`, `urllib.parse.parse_qs`,
`urllib.parse.unquote`) and the collaborator interfaces specified for the
module (scrubber, DB-statement summarizer, attribute-key constants).

Python strings are modelled as Lean `String`s (sequences of unicode scalar
values, matching Python's code-point view), dictionaries as ordered
association lists with last-write-wins update in place (matching the
insertion-order semantics of Python dicts), and exceptions as `Except`.
-/

/-! ## Python-flavoured string primitives

All operations work over `List Char`, matching Python's code-point view of
`str`. -/

/-- Index of the first occurrence of a character, like Python `s.find(c)`
(returning `none` instead of `-1`). -/
def charFind : List Char → Char → Option Nat
  | [], _ => none
  | c :: cs, d => if c = d then some 0 else (charFind cs d).map (· + 1)

/-- Index of the last occurrence of a character, like Python `s.rfind(c)`
(returning `none` instead of `-1`). -/
def charRFind (cs : List Char) (d : Char) : Option Nat :=
  (charFind cs.reverse d).map (fun i => cs.length - 1 - i)

/-- Python `s.find(c, start)`: first occurrence at index `start` or later. -/
def charFindFrom (cs : List Char) (d : Char) (start : Nat) : Option Nat :=
  (charFind (cs.drop start) d).map (· + start)

/-- Python `s.split(sep)` for a one-character separator: the chunks between
occurrences of `sep` (an empty input gives `[""]`, as in Python). -/
def splitChar (cs : List Char) (sep : Char) : List (List Char) :=
  cs.foldr
    (fun c acc =>
      if c = sep then [] :: acc
      else
        match acc with
        | [] => [[c]]
        | h :: t => (c :: h) :: t)
    [[]]

/-- Python `s.split(sep, 1)` for a one-character separator: the parts before
and after the first occurrence, or `none` when `sep` does not occur. -/
def splitFirst : List Char → Char → Option (List Char × List Char)
  | [], _ => none
  | c :: rest, sep =>
    if c = sep then some ([], rest)
    else (splitFirst rest sep).map (fun p => (c :: p.1, p.2))

/-- Python `s.endswith(suffix)`. -/
def endsWithS (s suffix : String) : Bool :=
  suffix.data.isSuffixOf s.data

/-- Python `s.startswith(pre)`. -/
def startsWithS (s pre : String) : Bool :=
  pre.data.isPrefixOf s.data

/-- Python `s[:-n]` for `n > 0`: all but the last `n` characters. -/
def dropRightChars (s : String) (n : Nat) : String :=
  ⟨s.data.take (s.data.length - n)⟩

/-- The substring after the first occurrence of `c`, like Python
`s.split(c, 1)[1]` (total: gives `""` when `c` is absent; every use in the
rules is guarded so that `c` occurs). -/
def afterFirst (s : String) (c : Char) : String :=
  match splitFirst s.data c with
  | some p => ⟨p.2⟩
  | none => ""

/-- Python `s.replace('+', ' ')` specialised to one-character patterns. -/
def replaceChar (cs : List Char) (a b : Char) : List Char :=
  cs.map (fun c => if c = a then b else c)

/-! ## Attribute values and attribute maps

OpenTelemetry attribute values are scalars or small arrays.  A span's
attribute mapping is modelled as an ordered association list: Python dicts
preserve insertion order, update existing keys in place and append new keys
at the end, which the `setAttr`/`mergeAttrs` operations below reproduce
exactly (so list equality coincides with Python dict equality-with-order). -/

/-- A scalar or small-array OpenTelemetry attribute value. -/
inductive AttrValue where
  | str (s : String)
  | int (n : Int)
  | bool (b : Bool)
  | strList (l : List String)
deriving DecidableEq, Repr

/-- Python truthiness of an attribute value. -/
def AttrValue.truthy : AttrValue → Bool
  | .str s => s ≠ ""
  | .int n => n ≠ 0
  | .bool b => b
  | .strList l => l ≠ []

/-- An attribute mapping: ordered key/value pairs (a Python dict). -/
abbrev AttrMap := List (String × AttrValue)

/-- Python `attributes.get(k)`. -/
def getAttr (m : AttrMap) (k : String) : Option AttrValue :=
  (m.find? (fun e => e.1 = k)).map (·.2)

/-- Python `k in attributes`. -/
def hasKey (m : AttrMap) (k : String) : Bool :=
  m.any (fun e => e.1 = k)

/-- Python `{**m, k: v}`: update `k` in place when present, else append. -/
def setAttr (m : AttrMap) (k : String) (v : AttrValue) : AttrMap :=
  if hasKey m k then m.map (fun e => if e.1 = k then (k, v) else e)
  else m ++ [(k, v)]

/-- Python `{**m, **kvs}`: apply the updates left to right. -/
def mergeAttrs (m : AttrMap) (kvs : List (String × AttrValue)) : AttrMap :=
  kvs.foldl (fun acc kv => setAttr acc kv.1 kv.2) m

/-- Python truthiness of `attributes.get(k)` (with `None` falsy). -/
def optTruthy : Option AttrValue → Bool
  | none => false
  | some v => v.truthy

/-- Python `x and isinstance(x, str)` for an optional attribute value: the
string when the value is a truthy string, else `none`. -/
def truthyStr : Option AttrValue → Option String
  | some (.str s) => if s = "" then none else some s
  | _ => none

/-! ## Shared attribute-key constants and level numbers

The names below come from the repository's constants module, which is not
among the sources under verification; the spec pins them only as "stable
string identifiers for log-level-number, message, message-template,
span-type; a stable mapping from level name to severity integer; a stable
literal suffix marking pending spans" (spec section 6). -/

/-- Modelled from the spec: the stable attribute key holding the numeric log
level (`ATTRIBUTES_LOG_LEVEL_NUM_KEY` in the constants module, which is not
under verification). -/
def ATTRIBUTES_LOG_LEVEL_NUM_KEY : String := "logfire.level_num"

/-- Modelled from the spec: the stable attribute key holding the span
message (`ATTRIBUTES_MESSAGE_KEY`). -/
def ATTRIBUTES_MESSAGE_KEY : String := "logfire.msg"

/-- Modelled from the spec: the stable attribute key holding the message
template (`ATTRIBUTES_MESSAGE_TEMPLATE_KEY`). -/
def ATTRIBUTES_MESSAGE_TEMPLATE_KEY : String := "logfire.msg_template"

/-- Modelled from the spec: the stable attribute key holding the span type
(`ATTRIBUTES_SPAN_TYPE_KEY`). -/
def ATTRIBUTES_SPAN_TYPE_KEY : String := "logfire.span_type"

/-- Modelled from the spec: the stable literal suffix marking a pending span
(`PENDING_SPAN_NAME_SUFFIX`). -/
def PENDING_SPAN_NAME_SUFFIX : String := " (pending)"

/-- Modelled from the spec: `LEVEL_NUMBERS`, the fixed mapping from level
name to an ordered integer severity, monotonic with severity. -/
def LEVEL_NUMBERS : List (String × Int) :=
  [("trace", 1), ("debug", 5), ("info", 9), ("notice", 10),
   ("warn", 13), ("error", 17), ("fatal", 21)]

/-- Python `LEVEL_NUMBERS[level]` (total; every use is on a present key). -/
def levelNum (level : String) : Int :=
  ((LEVEL_NUMBERS.find? (fun e => e.1 = level)).map (·.2)).getD 0

/-- Modelled from the spec: `log_level_attributes(level)`, the attribute
update `{ATTRIBUTES_LOG_LEVEL_NUM_KEY: LEVEL_NUMBERS[level]}` installing the
numeric severity for a level name. -/
def log_level_attributes (level : String) : List (String × AttrValue) :=
  [(ATTRIBUTES_LOG_LEVEL_NUM_KEY, .int (levelNum level))]

/-! ## Span records -/

/-- An OpenTelemetry status code. -/
inductive StatusCode where
  | unset
  | ok
  | error
deriving DecidableEq, Repr

/-- An OpenTelemetry `Status`: a code and an optional description. -/
structure SpanStatus where
  status_code : StatusCode
  description : Option String
deriving DecidableEq, Repr

/-- The `Status.is_unset` property. -/
def SpanStatus.is_unset (s : SpanStatus) : Bool :=
  s.status_code = .unset

/-- The instrumentation scope: an identifying name of the producing library. -/
structure InstrumentationScope where
  name : String
deriving DecidableEq, Repr

/-- Modelled from the spec: `ReadableSpanDict`, the mutable value snapshot of
a finalized span taken by `span_to_dict` (from the utils module, not under
verification): name, attribute map, status, instrumentation scope, "and
other immutable span fields (timestamps, events, links) that this stage
never touches" (spec section 3).  Identity-only fields are modelled as
opaque numbers. -/
structure ReadableSpanDict where
  name : String
  context : Nat
  parent : Option Nat
  kind : Nat
  resource : Nat
  instrumentation_scope : Option InstrumentationScope
  attributes : AttrMap
  events : List Nat
  links : List Nat
  start_time : Nat
  end_time : Nat
  status : SpanStatus
deriving DecidableEq, Repr

/-- A live (start-time) span: name, scope and attributes are the fields the
start-time rule can read or write. -/
structure LiveSpan where
  name : String
  instrumentation_scope : Option InstrumentationScope
  attributes : AttrMap
deriving DecidableEq, Repr

/-! ## Model of `urllib.parse.urlsplit` / `urlparse`

The rules call `urlparse(url).path` and `urlparse(url).query`.  The model
follows CPython's `urllib.parse.urlsplit` (with `allow_fragments=True` and no
default scheme): tab/CR/LF removal, scheme recognition, netloc extraction
after a leading `//` up to the first `/`, `?` or `#`, the
`ValueError("Invalid IPv6 URL")` raised when the netloc contains `[` without
`]` or vice versa, then fragment and query splitting; `urlparse`
additionally splits `;`-parameters off the last path segment.  (The
bracketed-host and netloc NFKC spoofing checks of newer CPython, which raise
only for inputs containing well-bracketed or non-ASCII hosts, are not
modelled; no claim below depends on them.) -/

/-- A raised Python exception. -/
inductive PyErr where
  | valueError (msg : String)
deriving DecidableEq, Repr

/-- The fields of `urllib.parse.SplitResult` used here. -/
structure SplitResult where
  scheme : String
  netloc : String
  path : String
  query : String
  fragment : String
deriving DecidableEq, Repr

/-- The characters allowed in a URL scheme (`urllib.parse.scheme_chars`). -/
def isSchemeChar (c : Char) : Bool :=
  c.isAlpha || c.isDigit || c = '+' || c = '-' || c = '.'

/-- `urllib.parse._splitnetloc`: the netloc runs up to the first `/`, `?` or
`#`. -/
def splitnetloc (cs : List Char) : List Char × List Char :=
  let delim := (cs.findIdx? (fun c => c = '/' || c = '?' || c = '#')).getD cs.length
  (cs.take delim, cs.drop delim)

/-- `urllib.parse.urlsplit`. -/
def urlsplit (urlIn : String) : Except PyErr SplitResult :=
  let url := urlIn.data.filter (fun c => c ≠ '\t' && c ≠ '\r' && c ≠ '\n')
  let schemeUrl : List Char × List Char :=
    match charFind url ':' with
    | some i =>
      if 0 < i
          && (match url with | c :: _ => c.isAlpha | [] => false)
          && (url.take i).all isSchemeChar
      then ((url.take i).map Char.toLower, url.drop (i + 1))
      else ([], url)
    | none => ([], url)
  let scheme := schemeUrl.1
  let url := schemeUrl.2
  let netlocUrl : List Char × List Char :=
    if url.take 2 = ['/', '/'] then splitnetloc (url.drop 2) else ([], url)
  let netloc := netlocUrl.1
  let url := netlocUrl.2
  if (netloc.contains '[' && !netloc.contains ']')
      || (netloc.contains ']' && !netloc.contains '[') then
    .error (.valueError "Invalid IPv6 URL")
  else
    let urlFragment : List Char × List Char :=
      match splitFirst url '#' with
      | some p => p
      | none => (url, [])
    let urlQuery : List Char × List Char :=
      match splitFirst urlFragment.1 '?' with
      | some p => p
      | none => (urlFragment.1, [])
    .ok ⟨⟨scheme⟩, ⟨netloc⟩, ⟨urlQuery.1⟩, ⟨urlQuery.2⟩, ⟨urlFragment.2⟩⟩

/-- The fields of `urllib.parse.ParseResult` used here. -/
structure UrlResult where
  scheme : String
  netloc : String
  path : String
  params : String
  query : String
  fragment : String
deriving DecidableEq, Repr

/-- `urllib.parse._splitparams`: split `;`-parameters off the last path
segment. -/
def splitparams (cs : List Char) : List Char × List Char :=
  let iOpt :=
    if cs.contains '/' then charFindFrom cs ';' ((charRFind cs '/').getD 0)
    else charFind cs ';'
  match iOpt with
  | none => (cs, [])
  | some i => (cs.take i, cs.drop (i + 1))

/-- `urllib.parse.urlparse`. -/
def urlparse (url : String) : Except PyErr UrlResult :=
  (urlsplit url).map fun s =>
    let pathParams : List Char × List Char :=
      if s.path.data.contains ';' then splitparams s.path.data else (s.path.data, [])
    ⟨s.scheme, s.netloc, ⟨pathParams.1⟩, ⟨pathParams.2⟩, s.query, s.fragment⟩

/-! ## Model of `urllib.parse.unquote` and `parse_qs`

`unquote(s, encoding='utf-8', errors='replace')`: maximal ASCII runs are
percent-decoded to bytes (`%` followed by exactly two hex digits becomes a
byte, anything else stays literal including the `%`) and the resulting byte
run is UTF-8-decoded with invalid sequences replaced by U+FFFD (one
replacement per maximal invalid subpart); non-ASCII characters pass through
untouched. -/

/-- The value of a hex digit, if any. -/
def hexDigitVal (c : Char) : Option Nat :=
  let n := c.toNat
  if 48 ≤ n ∧ n ≤ 57 then some (n - 48)
  else if 97 ≤ n ∧ n ≤ 102 then some (n - 87)
  else if 65 ≤ n ∧ n ≤ 70 then some (n - 55)
  else none

/-- `urllib.parse.unquote_to_bytes` on an ASCII chunk: split on `%`, decode
exactly-two-hex-digit escapes to bytes, keep everything else literal. -/
def unquoteBytes (cs : List Char) : List Nat :=
  match splitChar cs '%' with
  | [] => []
  | first :: rest =>
    first.map Char.toNat ++
      rest.flatMap fun item =>
        match item with
        | a :: b :: tail =>
          match hexDigitVal a, hexDigitVal b with
          | some x, some y => (16 * x + y) :: tail.map Char.toNat
          | _, _ => '%'.toNat :: item.map Char.toNat
        | _ => '%'.toNat :: item.map Char.toNat

/-- Is `b` a UTF-8 continuation byte? -/
def isCont (b : Nat) : Bool := 0x80 ≤ b && b ≤ 0xBF

/-- The replacement character U+FFFD. -/
def replChar : Char := Char.ofNat 0xFFFD

/-- UTF-8 decoding with `errors='replace'`, fuel-driven (the fuel is the
byte count; each step consumes at least one byte). -/
def utf8DecodeReplaceAux : Nat → List Nat → List Char
  | 0, _ => []
  | _, [] => []
  | fuel + 1, b :: rest =>
    if b < 0x80 then Char.ofNat b :: utf8DecodeReplaceAux fuel rest
    else if 0xC2 ≤ b && b ≤ 0xDF then
      match rest with
      | b1 :: rest2 =>
        if isCont b1 then
          Char.ofNat (0x40 * (b - 0xC0) + (b1 - 0x80)) :: utf8DecodeReplaceAux fuel rest2
        else replChar :: utf8DecodeReplaceAux fuel rest
      | [] => [replChar]
    else if 0xE0 ≤ b && b ≤ 0xEF then
      match rest with
      | b1 :: rest2 =>
        let firstOk :=
          if b = 0xE0 then 0xA0 ≤ b1 && b1 ≤ 0xBF
          else if b = 0xED then 0x80 ≤ b1 && b1 ≤ 0x9F
          else isCont b1
        if firstOk then
          match rest2 with
          | b2 :: rest3 =>
            if isCont b2 then
              Char.ofNat (0x1000 * (b - 0xE0) + 0x40 * (b1 - 0x80) + (b2 - 0x80)) ::
                utf8DecodeReplaceAux fuel rest3
            else replChar :: utf8DecodeReplaceAux fuel rest2
          | [] => [replChar]
        else replChar :: utf8DecodeReplaceAux fuel rest
      | [] => [replChar]
    else if 0xF0 ≤ b && b ≤ 0xF4 then
      match rest with
      | b1 :: rest2 =>
        let firstOk :=
          if b = 0xF0 then 0x90 ≤ b1 && b1 ≤ 0xBF
          else if b = 0xF4 then 0x80 ≤ b1 && b1 ≤ 0x8F
          else isCont b1
        if firstOk then
          match rest2 with
          | b2 :: rest3 =>
            if isCont b2 then
              match rest3 with
              | b3 :: rest4 =>
                if isCont b3 then
                  Char.ofNat (0x40000 * (b - 0xF0) + 0x1000 * (b1 - 0x80) +
                      0x40 * (b2 - 0x80) + (b3 - 0x80)) ::
                    utf8DecodeReplaceAux fuel rest4
                else replChar :: utf8DecodeReplaceAux fuel rest3
              | [] => [replChar]
            else replChar :: utf8DecodeReplaceAux fuel rest2
          | [] => [replChar]
        else replChar :: utf8DecodeReplaceAux fuel rest
      | [] => [replChar]
    else replChar :: utf8DecodeReplaceAux fuel rest

/-- UTF-8 decoding with `errors='replace'`. -/
def utf8DecodeReplace (bs : List Nat) : List Char :=
  utf8DecodeReplaceAux bs.length bs

/-- Is `c` an ASCII character? -/
def isAsciiChar (c : Char) : Bool := c.toNat < 0x80

/-- Process the alternating ASCII / non-ASCII runs of `unquote` (fuel-driven;
each step consumes at least one character). -/
def unquoteRuns : Nat → List Char → List Char
  | 0, _ => []
  | _, [] => []
  | fuel + 1, cs@(c :: _) =>
    if isAsciiChar c then
      utf8DecodeReplace (unquoteBytes (cs.takeWhile isAsciiChar)) ++
        unquoteRuns fuel (cs.dropWhile isAsciiChar)
    else
      cs.takeWhile (fun d => !isAsciiChar d) ++
        unquoteRuns fuel (cs.dropWhile (fun d => !isAsciiChar d))

/-- `urllib.parse.unquote` with the defaults used by `parse_qs`
(`encoding='utf-8'`, `errors='replace'`). -/
def unquote (s : String) : String :=
  if !s.data.contains '%' then s else ⟨unquoteRuns s.data.length s.data⟩

/-- `urllib.parse.parse_qsl` with default arguments (`keep_blank_values`
false, `strict_parsing` false, separator `&`): fields without `=` or with an
empty value are dropped, `+` becomes a space, names and values are
percent-decoded. -/
def parse_qsl (qs : String) : List (String × String) :=
  if qs.data = [] then []
  else
    (splitChar qs.data '&').foldr
      (fun nameValue acc =>
        if nameValue = [] then acc
        else
          match splitFirst nameValue '=' with
          | none => acc
          | some (n, v) =>
            if v = [] then acc
            else (unquote ⟨replaceChar n '+' ' '⟩, unquote ⟨replaceChar v '+' ' '⟩) :: acc)
      []

/-- One step of `parse_qs` grouping: append the value to an existing key's
list, else append a new key at the end (Python dict order). -/
def addQsPair (acc : List (String × List String)) (kv : String × String) :
    List (String × List String) :=
  if acc.any (fun e => e.1 = kv.1) then
    acc.map (fun e => if e.1 = kv.1 then (e.1, e.2 ++ [kv.2]) else e)
  else acc ++ [(kv.1, [kv.2])]

/-- `urllib.parse.parse_qs` with default arguments: group the `parse_qsl`
pairs into an insertion-ordered mapping from key to list of values. -/
def parse_qs (qs : String) : List (String × List String) :=
  (parse_qsl qs).foldl addQsPair []

/-! ## Sorting of query pairs

Python's `pairs.sort(key=lambda pair: (len(pair[0]) + len(pair[1]), pair))`
sorts stably and ascending by the key; tuple comparison is lexicographic and
string comparison is lexicographic by code point.  The model uses
`List.insertionSort` (stable) with the same total preorder; note the key
includes the pair itself, so ties in the order are equal pairs and the
sorted result is unique. -/

/-- Python string `<`: lexicographic comparison by code point. -/
def charsLt : List Char → List Char → Bool
  | [], [] => false
  | [], _ :: _ => true
  | _ :: _, [] => false
  | a :: as, b :: bs => if a < b then true else if b < a then false else charsLt as bs

/-- Python `<` on strings. -/
def strLt (a b : String) : Bool := charsLt a.data b.data

/-- The comparison `(len(k1) + len(v1), (k1, v1)) <= (len(k2) + len(v2), (k2, v2))`
used as the sort key for query-string pairs. -/
def pairLeB (p q : String × String) : Bool :=
  decide (p.1.length + p.2.length < q.1.length + q.2.length) ||
    (decide (p.1.length + p.2.length = q.1.length + q.2.length) &&
      (strLt p.1 q.1 || (p.1 = q.1 && (strLt p.2 q.2 || p.2 = q.2))))

/-- The sort-key order as a relation, for `List.insertionSort`. -/
def PairLe (p q : String × String) : Prop := pairLeB p q = true

instance : DecidableRel PairLe := fun p q => decEq (pairLeB p q) true

/-- Python `pairs.sort(key=lambda pair: (len(pair[0]) + len(pair[1]), pair))`. -/
def sortPairs (pairs : List (String × String)) : List (String × String) :=
  List.insertionSort PairLe pairs

/-! ## The `truncate_string` helper and Python `repr` of strings -/

/-- Modelled from the spec: `truncate_string(s, max_length, middle)` (from
the utils module, not under verification) returns `s` unchanged when it has
at most `max_length` characters and otherwise truncates it to `max_length`
characters total, keeping a prefix and a suffix and replacing the middle
with the string `middle` ("truncate each key and value independently to 20
characters using a middle-ellipsis policy", spec section 4.5). -/
def truncate_string (s : String) (max_length : Nat) (middle : String) : String :=
  if s.length ≤ max_length then s
  else
    let rem := max_length - middle.length
    let half := rem / 2
    ⟨s.data.take (rem - half) ++ middle.data ++ s.data.drop (s.data.length - half)⟩

/-- The escape of one character inside a Python string repr with quote
character `q`.  (The `\xNN`/`\uNNNN` escaping of other non-printable
characters is not modelled; no claim below involves them.) -/
def pyReprEscape (q c : Char) : List Char :=
  if c = '\\' then ['\\', '\\']
  else if c = q then ['\\', q]
  else if c = '\n' then ['\\', 'n']
  else if c = '\r' then ['\\', 'r']
  else if c = '\t' then ['\\', 't']
  else [c]

/-- Python `repr` of a string, as used by the f-string conversion `{v!r}`:
single quotes, switching to double quotes when the string contains a single
quote but no double quote. -/
def pyRepr (s : String) : String :=
  let q : Char := if s.data.contains '\'' && !s.data.contains '"' then '"' else '\''
  ⟨q :: s.data.flatMap (pyReprEscape q) ++ [q]⟩

/-! ## The five rewrite rules -/

/-- `_set_error_level_and_status`: default the log level to error if the
status code is error, and vice versa. -/
def set_error_level_and_status (span : ReadableSpanDict) : ReadableSpanDict :=
  let status := span.status
  let attributes := span.attributes
  if status.status_code = .error && !hasKey attributes ATTRIBUTES_LOG_LEVEL_NUM_KEY then
    { span with attributes := mergeAttrs attributes (log_level_attributes "error") }
  else if status.is_unset then
    match getAttr attributes ATTRIBUTES_LOG_LEVEL_NUM_KEY with
    | some (.int level) =>
      if levelNum "error" ≤ level then
        { span with status := ⟨.error, status.description⟩ }
      else span
    | _ => span
  else span

/-- `_is_asgi_send_receive_span`: the instrumentation scope is one of the
known transport-middleware scopes and the name ends with a qualifying
suffix. -/
def is_asgi_send_receive_span (name : String) (scope : Option InstrumentationScope) : Bool :=
  (match scope with
   | some s =>
     s.name = "opentelemetry.instrumentation.asgi" ||
       s.name = "opentelemetry.instrumentation.starlette" ||
       s.name = "opentelemetry.instrumentation.fastapi"
   | none => false) &&
    (endsWithS name " http send" || endsWithS name " http receive" ||
      endsWithS name " websocket send" || endsWithS name " websocket receive")

/-- `_set_log_level_on_asgi_send_receive_spans` (start-time): set the log
level of ASGI send/receive spans to debug. -/
def set_log_level_on_asgi_send_receive_spans (span : LiveSpan) : LiveSpan :=
  if is_asgi_send_receive_span span.name span.instrumentation_scope then
    { span with attributes := mergeAttrs span.attributes (log_level_attributes "debug") }
  else span

/-- `_tweak_sqlalchemy_connect_spans`: set the sqlalchemy `connect` span to
debug level so that it is hidden by default. -/
def tweak_sqlalchemy_connect_spans (span : ReadableSpanDict) : ReadableSpanDict :=
  if span.name ≠ "connect" then span
  else
    match span.instrumentation_scope with
    | none => span
    | some scope =>
      if scope.name ≠ "opentelemetry.instrumentation.sqlalchemy" then span
      else
        let attributes := span.attributes
        if !hasKey attributes "db.system" || hasKey attributes "db.statement" then span
        else { span with attributes := mergeAttrs attributes (log_level_attributes "debug") }

/-- The event type read by the ASGI tweak:
`attributes.get('asgi.event.type') or attributes.get('type')`. -/
def asgiEventType (attributes : AttrMap) : Option AttrValue :=
  if optTruthy (getAttr attributes "asgi.event.type") then getAttr attributes "asgi.event.type"
  else getAttr attributes "type"

/-- `_tweak_asgi_send_receive_spans` (end-time): add part of the ASGI event
type to the name/message of qualifying send/receive spans. -/
def tweak_asgi_send_receive_spans (span : ReadableSpanDict) : ReadableSpanDict :=
  let name := span.name
  if is_asgi_send_receive_span name span.instrumentation_scope then
    let attributes := span.attributes
    match asgiEventType attributes with
    | some (.str typ) =>
      if (startsWithS typ "http." || startsWithS typ "websocket.") &&
          getAttr attributes ATTRIBUTES_MESSAGE_KEY = some (.str name) then
        if typ = "websocket.send" || typ = "websocket.receive" then
          { span with attributes := setAttr attributes ATTRIBUTES_MESSAGE_KEY (.str name) }
        else
          let new_name := name ++ " " ++ afterFirst typ '.'
          { span with
              name := new_name
              attributes := setAttr attributes ATTRIBUTES_MESSAGE_KEY (.str new_name) }
      else span
    | _ => span
  else span

/-! ## `_tweak_http_spans` -/

/-- The candidate span names, worst to best: method, route, and their
space-joined combination when both are present. -/
def httpNames (method route : Option AttrValue) : List String :=
  let base :=
    (match truthyStr method with | some m => [m] | none => []) ++
      (match truthyStr route with | some r => [r] | none => [])
  if base.length = 2 then base ++ [String.intercalate " " base] else base

/-- The candidate messages, worst to best: method, target, and their
space-joined combination when both are present. -/
def httpMessages (method target : Option AttrValue) : List String :=
  let base :=
    (match truthyStr method with | some m => [m] | none => []) ++
      (match truthyStr target with | some t => [t] | none => [])
  if base.length = 2 then base ++ [String.intercalate " " base] else base

/-- The rendered query-parameter suffix: flatten the parsed params to
(key, value) pairs, sort by `(len(k) + len(v), (k, v))`, truncate each key
and value to 20 characters with a middle ellipsis, and join as
`k='v' & ...` using Python repr for the values. -/
def renderQueryPairs (query_params : List (String × List String)) : String :=
  let pairs := (query_params.map (fun kv => kv.2.map (fun v => (kv.1, v)))).flatten
  let truncated :=
    (sortPairs pairs).map
      (fun p => (truncate_string p.1 20 "…", truncate_string p.2 20 "…"))
  String.intercalate " & " (truncated.map (fun p => p.1 ++ "=" ++ pyRepr p.2))

/-- The query-append step of `_tweak_http_spans`: when a URL and a target
are available (truthy strings) and the message ends with the target, parse
the URL (this `urlparse` call is not guarded by a `try`), and when query
params exist and the target does not already end with the query string,
append ` ? k='v' & ...` to the message. -/
def httpQueryAppend (message : String) (target url : Option String) : Except PyErr String :=
  match url, target with
  | some u, some t =>
    if endsWithS message t then
      match urlparse u with
      | .error e => .error e
      | .ok pr =>
        let query_string := pr.query
        let query_params := parse_qs query_string
        if query_params ≠ [] && !endsWithS t query_string then
          .ok (message ++ " ? " ++ renderQueryPairs query_params)
        else .ok message
    else .ok message
  | _, _ => .ok message

/-- The tail of `_tweak_http_spans` (source lines 176-251), with the
pending flag and the (possibly suffix-stripped) `name` in context: the
message/name guard, the method/route/target/url reads, the guarded target
derivation, the candidate lists, the rename and the message rewrite. -/
def httpTail (span : ReadableSpanDict) (is_pending : Bool) (name : String) :
    Except PyErr ReadableSpanDict :=
  let attributes := span.attributes
  if getAttr attributes ATTRIBUTES_MESSAGE_KEY ≠ some (.str name) then .ok span
  else
    let method := getAttr attributes "http.method"
    let route := getAttr attributes "http.route"
    let target0 := getAttr attributes "http.target"
    let url := getAttr attributes "http.url"
    if !(optTruthy method || optTruthy route || optTruthy target0 || optTruthy url) then
      .ok span
    else
      let derived : Option String :=
        if optTruthy target0 then none
        else
          match truthyStr url with
          | some u =>
            match urlparse u with
            | .ok pr => some pr.path
            | .error _ => none
          | none => none
      let target := match derived with | some p => some (AttrValue.str p) | none => target0
      let attributes :=
        match derived with
        | some p => setAttr attributes "http.target" (.str p)
        | none => attributes
      let span := { span with attributes := attributes }
      let names := httpNames method route
      let messages := httpMessages method target
      if !(names ++ messages).contains name then .ok span
      else
        let span :=
          match names.getLast? with
          | none => span
          | some best =>
            if best = name then span
            else
              { span with
                  name := if is_pending then best ++ PENDING_SPAN_NAME_SUFFIX else best }
        match messages.getLast? with
        | none => .ok span
        | some msgBest =>
          match httpQueryAppend msgBest (truthyStr target) (truthyStr url) with
          | .error e => .error e
          | .ok message =>
            if message = name then .ok span
            else .ok { span with attributes := setAttr attributes ATTRIBUTES_MESSAGE_KEY (.str message) }

/-- `_tweak_http_spans`: rewrite the name to method + route and the message
to method + target (with optional query parameters) for spans whose name is
a trivial method/route/target combination; derives `http.target` from
`http.url` when needed (that `urlparse` call is guarded by `try`/`except`,
the one in the query-append step is not). -/
def tweak_http_spans (span : ReadableSpanDict) : Except PyErr ReadableSpanDict :=
  let attributes := span.attributes
  if hasKey attributes ATTRIBUTES_MESSAGE_TEMPLATE_KEY then .ok span
  else
    let is_pending : Bool := getAttr attributes ATTRIBUTES_SPAN_TYPE_KEY = some (.str "pending_span")
    let name :=
      if is_pending then dropRightChars span.name PENDING_SPAN_NAME_SUFFIX.length
      else span.name
    httpTail span is_pending name

/-! ## The summarizer and scrubber collaborators, and the processor -/

/-- The DB-statement summarizer collaborator: "a pure function
`(attributes, currentMessage, spanName) -> optional string`" (spec
section 6).  The current message is passed as the raw attribute value, which
the code reads without a type check. -/
abbrev Summarizer := AttrMap → Option AttrValue → String → Option String

/-- `_summarize_db_statement`: invoke the summarizer with the current
attributes, the current message attribute and the span name; a non-`None`
result becomes the new message attribute. -/
def summarize_db_statement (summarizer : Summarizer) (span : ReadableSpanDict) :
    ReadableSpanDict :=
  let attributes := span.attributes
  let message := getAttr attributes ATTRIBUTES_MESSAGE_KEY
  match summarizer attributes message span.name with
  | some summary =>
    { span with attributes := setAttr attributes ATTRIBUTES_MESSAGE_KEY (.str summary) }
  | none => span

/-- Modelled from the spec: the external scrubber "may rewrite or redact any
attribute value in place on the record" (spec section 4.7); modelled as a
per-value rewriting function applied to every attribute. -/
abbrev Scrubber := String → AttrValue → AttrValue

/-- `scrubber.scrub_span`: rewrite the attribute values of the record. -/
def scrub_span (scrubber : Scrubber) (span : ReadableSpanDict) : ReadableSpanDict :=
  { span with attributes := span.attributes.map (fun kv => (kv.1, scrubber kv.1 kv.2)) }

/-- The five-rule sequence run by `on_end` before the scrubber, in source
order; an uncaught exception in a rule propagates. -/
def onEndRules (summarizer : Summarizer) (span : ReadableSpanDict) :
    Except PyErr ReadableSpanDict :=
  let s1 := tweak_asgi_send_receive_spans span
  let s2 := tweak_sqlalchemy_connect_spans s1
  match tweak_http_spans s2 with
  | .error e => .error e
  | .ok s3 =>
    let s4 := summarize_db_statement summarizer s3
    .ok (set_error_level_and_status s4)

/-- `MainSpanProcessorWrapper.on_end`: a no-op under ambient suppression;
otherwise run the five rules, scrub, rebuild the span and forward it
downstream.  The result is `.ok none` when nothing is forwarded, `.ok (some r)`
when `r` is forwarded downstream, and `.error e` when an exception
propagates to the caller (in which case nothing is forwarded). -/
def on_end (summarizer : Summarizer) (scrubber : Scrubber) (suppressed : Bool)
    (span : ReadableSpanDict) : Except PyErr (Option ReadableSpanDict) :=
  if suppressed then .ok none
  else
    match onEndRules summarizer span with
    | .error e => .error e
    | .ok s => .ok (some (scrub_span scrubber s))

/-- `MainSpanProcessorWrapper.on_start`: a no-op under ambient suppression;
otherwise run the start-time ASGI rule and forward the span downstream.
`none` means nothing was forwarded. -/
def on_start (suppressed : Bool) (span : LiveSpan) : Option LiveSpan :=
  if suppressed then none
  else some (set_log_level_on_asgi_send_receive_spans span)

deriving instance DecidableEq for Except

/-! ## Shared concrete inputs for witnesses and counterexamples -/

/-- The summarizer that never produces a summary (a collaborator permitted
by the spec's `optional string` contract). -/
def noSummary : Summarizer := fun _ _ _ => none

/-- The scrubber that redacts nothing. -/
def idScrub : Scrubber := fun _ v => v

/-- A baseline end-time record for concrete witnesses (frame fields are
nonzero so that their preservation is visible). -/
def baseRec : ReadableSpanDict :=
  { name := "", context := 7, parent := some 3, kind := 2, resource := 5,
    instrumentation_scope := none, attributes := [], events := [4], links := [9],
    start_time := 100, end_time := 200, status := ⟨.unset, none⟩ }

/-! ## C2: suppression makes both operations no-ops -/

/-- **C2**: for every span and record, when the ambient suppression flag is
set, `on_start` and `on_end` return immediately as no-ops: no rewrite rule
runs and nothing is forwarded to the downstream processor (the results
`.ok none` and `none` carry no forwarded span, and the input value is left
untouched). -/
theorem c2_suppression_noop (summarizer : Summarizer) (scrubber : Scrubber)
    (span : ReadableSpanDict) (live : LiveSpan) :
    on_end summarizer scrubber true span = .ok none ∧ on_start true live = none :=
  ⟨rfl, rfl⟩

/-! ## C4: level/status reconciliation -/

/-- **C4**: at end time, if status is error and no level attribute is
present, the level attribute is set to error's severity; else if status is
unset and an (integer) level attribute at or above error's severity is
present, the status is set to error preserving the existing description;
otherwise nothing changes.  At most one of the two cases applies, and a
span with status ok is never altered. -/
theorem c4_error_level_status_reconcile (span : ReadableSpanDict) :
    (span.status.status_code = .error →
      hasKey span.attributes ATTRIBUTES_LOG_LEVEL_NUM_KEY = false →
      set_error_level_and_status span =
        { span with attributes := mergeAttrs span.attributes (log_level_attributes "error") }) ∧
    (span.status.status_code = .unset →
      ∀ n : Int, getAttr span.attributes ATTRIBUTES_LOG_LEVEL_NUM_KEY = some (.int n) →
        levelNum "error" ≤ n →
        set_error_level_and_status span =
          { span with status := ⟨.error, span.status.description⟩ }) ∧
    (¬ (span.status.status_code = .error ∧
          hasKey span.attributes ATTRIBUTES_LOG_LEVEL_NUM_KEY = false) →
      ¬ (span.status.status_code = .unset ∧
          ∃ n : Int, getAttr span.attributes ATTRIBUTES_LOG_LEVEL_NUM_KEY = some (.int n) ∧
            levelNum "error" ≤ n) →
      set_error_level_and_status span = span) ∧
    (¬ ((span.status.status_code = .error ∧
          hasKey span.attributes ATTRIBUTES_LOG_LEVEL_NUM_KEY = false) ∧
        (span.status.status_code = .unset ∧
          ∃ n : Int, getAttr span.attributes ATTRIBUTES_LOG_LEVEL_NUM_KEY = some (.int n) ∧
            levelNum "error" ≤ n))) ∧
    (span.status.status_code = .ok → set_error_level_and_status span = span) := by
  refine ⟨?_, ?_, ?_, ?_, ?_⟩
  · intro he hk
    simp [set_error_level_and_status, he, hk]
  · intro hu n hget hge
    simp [set_error_level_and_status, hu, SpanStatus.is_unset, hget, hge]
  · intro h1 h2
    unfold set_error_level_and_status
    dsimp only
    split
    · rename_i hcond
      simp only [Bool.and_eq_true, decide_eq_true_eq, Bool.not_eq_true'] at hcond
      exact absurd ⟨hcond.1, hcond.2⟩ h1
    · split
      · rename_i hns hu
        split
        · rename_i n hget
          split
          · rename_i hge
            exact absurd ⟨by simpa [SpanStatus.is_unset] using hu, n, hget, hge⟩ h2
          · rfl
        · rfl
      · rfl
  · rintro ⟨⟨he, _⟩, ⟨hu, _⟩⟩
    rw [he] at hu
    exact StatusCode.noConfusion hu
  · intro hok
    unfold set_error_level_and_status
    dsimp only
    split
    · rename_i hcond
      simp only [Bool.and_eq_true, decide_eq_true_eq] at hcond
      rw [hok] at hcond
      exact absurd hcond.1 (by simp)
    · split
      · rename_i hu
        simp [SpanStatus.is_unset, hok] at hu
      · rfl

/-- A record with error status and no level attribute. -/
def c4Rec : ReadableSpanDict := { baseRec with status := ⟨.error, some "boom"⟩ }

/-- Witness for C4 at a concrete record: an error status with no level
attribute gets the error severity installed. -/
theorem c4_error_level_status_reconcile_witness :
    set_error_level_and_status c4Rec =
      { c4Rec with attributes := mergeAttrs c4Rec.attributes (log_level_attributes "error") } :=
  (c4_error_level_status_reconcile c4Rec).1 rfl rfl

/-! ## C10: a non-integer level value never upgrades an unset status -/

/-- **C10**: at end time, with unset status and a level attribute holding a
non-integer value, the reconciliation leaves the record unchanged; only an
integer-valued level attribute at or above error's severity can upgrade an
unset status to error. -/
theorem c10_nonint_level_no_upgrade (span : ReadableSpanDict) :
    (span.status.status_code = .unset →
      ∀ v, getAttr span.attributes ATTRIBUTES_LOG_LEVEL_NUM_KEY = some v →
        (∀ n : Int, v ≠ .int n) →
        set_error_level_and_status span = span) ∧
    (span.status.status_code = .unset →
      (set_error_level_and_status span).status ≠ span.status →
      ∃ n : Int, getAttr span.attributes ATTRIBUTES_LOG_LEVEL_NUM_KEY = some (.int n) ∧
        levelNum "error" ≤ n) := by
  constructor
  · intro hu v hget hni
    unfold set_error_level_and_status
    dsimp only
    rw [if_neg (by simp [hu]), if_pos (by simp [SpanStatus.is_unset, hu]), hget]
    rcases v with s | n | b | l
    · rfl
    · exact absurd rfl (hni n)
    · rfl
    · rfl
  · intro hu hne
    unfold set_error_level_and_status at hne
    dsimp only at hne
    rw [if_neg (by simp [hu]), if_pos (by simp [SpanStatus.is_unset, hu])] at hne
    rcases hget : getAttr span.attributes ATTRIBUTES_LOG_LEVEL_NUM_KEY with _ | v
    · rw [hget] at hne
      simp at hne
    · rw [hget] at hne
      rcases v with s | n | b | l
      · simp at hne
      · by_cases hge : levelNum "error" ≤ n
        · exact ⟨n, rfl, hge⟩
        · simp [hge] at hne
      · simp at hne
      · simp at hne

/-- A record with unset status and a string-valued level attribute. -/
def c10Rec : ReadableSpanDict :=
  { baseRec with attributes := [(ATTRIBUTES_LOG_LEVEL_NUM_KEY, .str "error")] }

/-- Witness for C10 at a concrete record: a string-valued level attribute
does not upgrade the unset status. -/
theorem c10_nonint_level_no_upgrade_witness :
    set_error_level_and_status c10Rec = c10Rec :=
  (c10_nonint_level_no_upgrade c10Rec).1 rfl (AttrValue.str "error") rfl (fun n => by simp)

/-! ## C7: SQLAlchemy connect demotion -/

/-- **C7**: the SQL-connect demotion sets the level attribute to debug if
and only if the span name is exactly `connect`, the instrumentation scope
name equals the SQL-driver instrumentation literal, a database-system
attribute is present and a database-statement attribute is absent; with a
database-statement attribute present the record is unchanged. -/
theorem c7_sqlalchemy_connect_demote (span : ReadableSpanDict) :
    ((span.name = "connect" ∧
        (∃ scope, span.instrumentation_scope = some scope ∧
            scope.name = "opentelemetry.instrumentation.sqlalchemy") ∧
        hasKey span.attributes "db.system" = true ∧
        hasKey span.attributes "db.statement" = false) →
      tweak_sqlalchemy_connect_spans span =
        { span with attributes := mergeAttrs span.attributes (log_level_attributes "debug") }) ∧
    (¬ (span.name = "connect" ∧
        (∃ scope, span.instrumentation_scope = some scope ∧
            scope.name = "opentelemetry.instrumentation.sqlalchemy") ∧
        hasKey span.attributes "db.system" = true ∧
        hasKey span.attributes "db.statement" = false) →
      tweak_sqlalchemy_connect_spans span = span) ∧
    (hasKey span.attributes "db.statement" = true →
      tweak_sqlalchemy_connect_spans span = span) := by
  refine ⟨?_, ?_, ?_⟩
  · rintro ⟨hname, ⟨scope, hscope, hsname⟩, hsys, hstmt⟩
    simp [tweak_sqlalchemy_connect_spans, hname, hscope, hsname, hsys, hstmt]
  · intro hnot
    by_cases hname : span.name = "connect"
    · rcases hsc : span.instrumentation_scope with _ | scope
      · simp [tweak_sqlalchemy_connect_spans, hname, hsc]
      · by_cases hsn : scope.name = "opentelemetry.instrumentation.sqlalchemy"
        · by_cases hsys : hasKey span.attributes "db.system" = true
          · by_cases hstmt : hasKey span.attributes "db.statement" = true
            · simp [tweak_sqlalchemy_connect_spans, hname, hsc, hsn, hstmt]
            · exact absurd ⟨hname, ⟨scope, hsc, hsn⟩, hsys, by simpa using hstmt⟩ hnot
          · have hsys2 : hasKey span.attributes "db.system" = false := by simpa using hsys
            simp [tweak_sqlalchemy_connect_spans, hname, hsc, hsn, hsys2]
        · simp [tweak_sqlalchemy_connect_spans, hname, hsc, hsn]
    · simp [tweak_sqlalchemy_connect_spans, hname]
  · intro hstmt
    by_cases hname : span.name = "connect"
    · rcases hsc : span.instrumentation_scope with _ | scope
      · simp [tweak_sqlalchemy_connect_spans, hname, hsc]
      · by_cases hsn : scope.name = "opentelemetry.instrumentation.sqlalchemy"
        · simp [tweak_sqlalchemy_connect_spans, hname, hsc, hsn, hstmt]
        · simp [tweak_sqlalchemy_connect_spans, hname, hsc, hsn]
    · simp [tweak_sqlalchemy_connect_spans, hname]

/-- The sqlalchemy `connect` span of the spec's test property. -/
def c7Rec : ReadableSpanDict :=
  { baseRec with
      name := "connect"
      instrumentation_scope := some ⟨"opentelemetry.instrumentation.sqlalchemy"⟩
      attributes := [("db.system", .str "postgresql")] }

/-- Witness for C7 at a concrete record: the connect span is demoted to
debug level. -/
theorem c7_sqlalchemy_connect_demote_witness :
    tweak_sqlalchemy_connect_spans c7Rec =
      { c7Rec with attributes := mergeAttrs c7Rec.attributes (log_level_attributes "debug") } :=
  (c7_sqlalchemy_connect_demote c7Rec).1
    ⟨rfl, ⟨⟨"opentelemetry.instrumentation.sqlalchemy"⟩, rfl, rfl⟩, rfl, rfl⟩

/-! ## C6: the end-time ASGI send/receive tweak -/

/-- **C6**: for every record qualifying as an ASGI send/receive span whose
event-type attribute starts with `http.` or `websocket.` and whose message
attribute equals the span name: `websocket.send`/`websocket.receive` leave
the name unchanged, every other type appends a space plus the substring of
the type after its first dot, and the message attribute is updated to the
resulting name; when the type/message precondition does not hold the span
is left untouched. -/
theorem c6_asgi_end_tweak (span : ReadableSpanDict)
    (h : is_asgi_send_receive_span span.name span.instrumentation_scope = true) :
    (∀ typ : String, asgiEventType span.attributes = some (.str typ) →
      (startsWithS typ "http." || startsWithS typ "websocket.") = true →
      getAttr span.attributes ATTRIBUTES_MESSAGE_KEY = some (.str span.name) →
      ((typ = "websocket.send" ∨ typ = "websocket.receive") →
        tweak_asgi_send_receive_spans span =
          { span with
              attributes := setAttr span.attributes ATTRIBUTES_MESSAGE_KEY (.str span.name) }) ∧
      (typ ≠ "websocket.send" → typ ≠ "websocket.receive" →
        tweak_asgi_send_receive_spans span =
          { span with
              name := span.name ++ " " ++ afterFirst typ '.'
              attributes := setAttr span.attributes ATTRIBUTES_MESSAGE_KEY
                (.str (span.name ++ " " ++ afterFirst typ '.')) })) ∧
    ((¬ ∃ typ : String, asgiEventType span.attributes = some (.str typ) ∧
        (startsWithS typ "http." || startsWithS typ "websocket.") = true ∧
        getAttr span.attributes ATTRIBUTES_MESSAGE_KEY = some (.str span.name)) →
      tweak_asgi_send_receive_spans span = span) := by
  constructor
  · intro typ htyp hpre hmsg
    constructor
    · intro hws
      unfold tweak_asgi_send_receive_spans
      rw [if_pos h]
      dsimp only
      rw [htyp]
      dsimp only
      rw [if_pos (by simp [hpre, hmsg]),
        if_pos (by rcases hws with hws | hws <;> simp [hws])]
    · intro hns hnr
      unfold tweak_asgi_send_receive_spans
      rw [if_pos h]
      dsimp only
      rw [htyp]
      dsimp only
      rw [if_pos (by simp [hpre, hmsg]), if_neg (by simp [hns, hnr])]
  · intro hnot
    unfold tweak_asgi_send_receive_spans
    rw [if_pos h]
    dsimp only
    rcases htyp : asgiEventType span.attributes with _ | v
    · rfl
    · rcases v with s | n | b | l
      · dsimp only
        rw [if_neg]
        intro hcond
        simp only [Bool.and_eq_true, decide_eq_true_eq] at hcond
        exact hnot ⟨s, htyp, hcond.1, hcond.2⟩
      · rfl
      · rfl
      · rfl

/-- The ASGI send span of the spec's end-to-end test property. -/
def c6Rec : ReadableSpanDict :=
  { baseRec with
      name := "GET /x http send"
      instrumentation_scope := some ⟨"opentelemetry.instrumentation.asgi"⟩
      attributes := [("asgi.event.type", .str "http.response.start"),
                     (ATTRIBUTES_MESSAGE_KEY, .str "GET /x http send")] }

/-- Witness for C6 at a concrete record: the `http.response.start` type is
appended to the name and the message follows. -/
theorem c6_asgi_end_tweak_witness :
    tweak_asgi_send_receive_spans c6Rec =
      { c6Rec with
          name := "GET /x http send response.start"
          attributes := setAttr c6Rec.attributes ATTRIBUTES_MESSAGE_KEY
            (.str "GET /x http send response.start") } :=
  ((c6_asgi_end_tweak c6Rec (by decide)).1 "http.response.start" rfl (by decide) rfl).2
    (by decide) (by decide)

/-! ## C8: the DB-statement summarizer merge -/

/-- A record with a message attribute, for the C8 statements. -/
def c8Rec : ReadableSpanDict :=
  { baseRec with name := "q", attributes := [(ATTRIBUTES_MESSAGE_KEY, .str "SELECT 1")] }

/-- A summarizer returning the empty-string summary (permitted by the
collaborator contract `optional string`). -/
def emptySummary : Summarizer := fun _ _ _ => some ""

/-- **C8** counterexample: with a summarizer returning the empty (hence not
non-empty) summary, the claim says the record is unchanged, but the code
checks only for `None` and installs the empty string as the new message
attribute. -/
theorem c8_counterexample :
    summarize_db_statement emptySummary c8Rec ≠ c8Rec ∧
      getAttr (summarize_db_statement emptySummary c8Rec).attributes ATTRIBUTES_MESSAGE_KEY =
        some (.str "") := by
  constructor
  · decide
  · rfl

/-- **C8** (amended): the step calls the summarizer with the current
attributes, the current message attribute (or none) and the span name; any
non-`None` summary (including the empty string) becomes the new message
attribute; a `None` result leaves the record unchanged. -/
theorem c8_summarize_merge (summarizer : Summarizer) (span : ReadableSpanDict) :
    (∀ s : String,
      summarizer span.attributes (getAttr span.attributes ATTRIBUTES_MESSAGE_KEY) span.name =
          some s →
      summarize_db_statement summarizer span =
        { span with attributes := setAttr span.attributes ATTRIBUTES_MESSAGE_KEY (.str s) }) ∧
    (summarizer span.attributes (getAttr span.attributes ATTRIBUTES_MESSAGE_KEY) span.name =
        none →
      summarize_db_statement summarizer span = span) := by
  constructor
  · intro s hs
    simp [summarize_db_statement, hs]
  · intro hn
    simp [summarize_db_statement, hn]

/-- A summarizer returning a fixed non-empty summary. -/
def constSummary : Summarizer := fun _ _ _ => some "1 row from t"

/-- Witness for C8 at a concrete record: a non-`None` summary becomes the
message attribute. -/
theorem c8_summarize_merge_witness :
    summarize_db_statement constSummary c8Rec =
      { c8Rec with
          attributes := setAttr c8Rec.attributes ATTRIBUTES_MESSAGE_KEY (.str "1 row from t") } :=
  (c8_summarize_merge constSummary c8Rec).1 "1 row from t" rfl

/-! ## C9: frame effect of `on_end` -/

/-- All record fields other than the name, the attribute map and the status
agree. -/
def SameFrame (a b : ReadableSpanDict) : Prop :=
  a.context = b.context ∧ a.parent = b.parent ∧ a.kind = b.kind ∧ a.resource = b.resource ∧
    a.instrumentation_scope = b.instrumentation_scope ∧ a.events = b.events ∧
    a.links = b.links ∧ a.start_time = b.start_time ∧ a.end_time = b.end_time

theorem sameFrame_trans {a b c : ReadableSpanDict} (h1 : SameFrame a b) (h2 : SameFrame b c) :
    SameFrame a c := by
  obtain ⟨x1, x2, x3, x4, x5, x6, x7, x8, x9⟩ := h1
  obtain ⟨y1, y2, y3, y4, y5, y6, y7, y8, y9⟩ := h2
  exact ⟨x1.trans y1, x2.trans y2, x3.trans y3, x4.trans y4, x5.trans y5,
    x6.trans y6, x7.trans y7, x8.trans y8, x9.trans y9⟩

theorem sameFrame_asgi (span : ReadableSpanDict) :
    SameFrame (tweak_asgi_send_receive_spans span) span := by
  unfold tweak_asgi_send_receive_spans
  dsimp only
  repeat' split
  all_goals simp [SameFrame]

theorem sameFrame_sqlalchemy (span : ReadableSpanDict) :
    SameFrame (tweak_sqlalchemy_connect_spans span) span := by
  unfold tweak_sqlalchemy_connect_spans
  dsimp only
  repeat' split
  all_goals simp [SameFrame]

theorem sameFrame_summarize (summarizer : Summarizer) (span : ReadableSpanDict) :
    SameFrame (summarize_db_statement summarizer span) span := by
  unfold summarize_db_statement
  dsimp only
  split
  all_goals simp [SameFrame]

theorem sameFrame_reconcile (span : ReadableSpanDict) :
    SameFrame (set_error_level_and_status span) span := by
  unfold set_error_level_and_status
  dsimp only
  repeat' split
  all_goals simp [SameFrame]

theorem sameFrame_scrub (scrubber : Scrubber) (span : ReadableSpanDict) :
    SameFrame (scrub_span scrubber span) span := by
  simp [scrub_span, SameFrame]

theorem sameFrame_http {span result : ReadableSpanDict}
    (h : tweak_http_spans span = .ok result) : SameFrame result span := by
  unfold tweak_http_spans httpTail at h
  dsimp only at h
  repeat' split at h
  all_goals first
    | exact ⟨rfl, rfl, rfl, rfl, rfl, rfl, rfl, rfl, rfl⟩
    | (injection h with h2
       subst h2
       exact ⟨rfl, rfl, rfl, rfl, rfl, rfl, rfl, rfl, rfl⟩)
    | (cases h)

/-- **C9**: every span field not rewritten by the rules — timestamps,
events, links, instrumentation scope, context, parent, kind, resource — is
identical in the record forwarded by `on_end` to the value in the input
record; only the name, the attribute map and the status may change. -/
theorem c9_on_end_frame (summarizer : Summarizer) (scrubber : Scrubber)
    (span out : ReadableSpanDict)
    (h : on_end summarizer scrubber false span = .ok (some out)) :
    out.context = span.context ∧ out.parent = span.parent ∧ out.kind = span.kind ∧
      out.resource = span.resource ∧
      out.instrumentation_scope = span.instrumentation_scope ∧
      out.events = span.events ∧ out.links = span.links ∧
      out.start_time = span.start_time ∧ out.end_time = span.end_time := by
  unfold on_end at h
  rw [if_neg (by simp)] at h
  rcases heq : onEndRules summarizer span with e | s
  · rw [heq] at h
    cases h
  · rw [heq] at h
    injection h with h
    injection h with h
    unfold onEndRules at heq
    dsimp only at heq
    rcases hh : tweak_http_spans (tweak_sqlalchemy_connect_spans
        (tweak_asgi_send_receive_spans span)) with e | s3
    · rw [hh] at heq
      cases heq
    · rw [hh] at heq
      injection heq with heq
      have f1 : SameFrame (tweak_asgi_send_receive_spans span) span := sameFrame_asgi span
      have f2 := sameFrame_sqlalchemy (tweak_asgi_send_receive_spans span)
      have f3 := sameFrame_http hh
      have f4 := sameFrame_summarize summarizer s3
      have f5 := sameFrame_reconcile (summarize_db_statement summarizer s3)
      have f6 := sameFrame_scrub scrubber s
      rw [heq] at f5
      subst h
      exact sameFrame_trans f6 (sameFrame_trans f5 (sameFrame_trans f4
        (sameFrame_trans f3 (sameFrame_trans f2 f1))))

/-- Witness for C9 at a concrete record: `on_end` forwards `baseRec`
unchanged, and in particular all frame fields agree. -/
theorem c9_on_end_frame_witness :
    baseRec.context = baseRec.context ∧ baseRec.parent = baseRec.parent ∧
      baseRec.kind = baseRec.kind ∧ baseRec.resource = baseRec.resource ∧
      baseRec.instrumentation_scope = baseRec.instrumentation_scope ∧
      baseRec.events = baseRec.events ∧ baseRec.links = baseRec.links ∧
      baseRec.start_time = baseRec.start_time ∧ baseRec.end_time = baseRec.end_time :=
  c9_on_end_frame noSummary idScrub baseRec baseRec rfl

/-! ## C1: error behaviour of the rules inside `on_end` -/

/-- A record whose query-append step reaches the unguarded `urlparse` with
a malformed URL: the target is present, the message equals the name and
ends with the target, and `http.url` is `"http://["`. -/
def c1Rec : ReadableSpanDict :=
  { baseRec with
      name := "/x"
      attributes := [(ATTRIBUTES_MESSAGE_KEY, .str "/x"), ("http.target", .str "/x"),
                     ("http.url", .str "http://[")] }

/-- **C1** counterexample: an internal error inside the HTTP-normalize rule
(the `ValueError` raised by the unguarded `urlparse` call in the
query-append step, on the URL `"http://["`) is not caught at the rule
boundary: it propagates out of `on_end`, which therefore raises, and the
span is dropped (nothing is forwarded downstream). -/
theorem c1_counterexample :
    on_end noSummary idScrub false c1Rec = .error (.valueError "Invalid IPv6 URL") := by
  rfl

/-- A record whose target-derivation step meets the same malformed URL: the
`urlparse` call there is guarded by `try`/`except` and the failure is
swallowed. -/
def c1bRec : ReadableSpanDict :=
  { baseRec with
      name := "GET"
      attributes := [(ATTRIBUTES_MESSAGE_KEY, .str "GET"), ("http.method", .str "GET"),
                     ("http.url", .str "http://[")] }

/-- **C1** (amended): errors inside the rules are not caught at the rule
boundaries.  When no rule raises, `on_end` forwards the rebuilt record
downstream exactly once (never dropping it); when a rule raises, the error
propagates out of `on_end` unchanged.  The only caught error is the URL
parse failure in the HTTP normalizer's target derivation, which degrades to
"no derived target": concretely, the rule passes `c1bRec` through
unchanged. -/
theorem c1_error_propagation (summarizer : Summarizer) (scrubber : Scrubber) :
    (∀ span result, onEndRules summarizer span = .ok result →
      on_end summarizer scrubber false span = .ok (some (scrub_span scrubber result))) ∧
    (∀ span e, onEndRules summarizer span = .error e →
      on_end summarizer scrubber false span = .error e) ∧
    tweak_http_spans c1bRec = .ok c1bRec := by
  refine ⟨?_, ?_, ?_⟩
  · intro span result h
    simp [on_end, h]
  · intro span e h
    simp [on_end, h]
  · rfl

/-- Witness for C1 (amended) at a concrete record: the rules succeed on
`c1bRec` and `on_end` forwards it downstream. -/
theorem c1_error_propagation_witness :
    on_end noSummary idScrub false c1bRec = .ok (some (scrub_span idScrub c1bRec)) :=
  (c1_error_propagation noSummary idScrub).1 c1bRec c1bRec rfl


/-! ## C5: query-parameter sorting, truncation and rendering -/

/-- The executable Python string `<` agrees with lexicographic order. -/
theorem charsLt_iff_lex : ∀ a b : List Char, charsLt a b = true ↔ List.Lex (· < ·) a b
  | [], [] => by
    simp only [charsLt]
    constructor
    · intro h
      cases h
    · intro h
      cases h
  | [], b :: bs => by
    simp only [charsLt]
    exact ⟨fun _ => List.Lex.nil, fun _ => trivial⟩
  | a :: as, [] => by
    simp only [charsLt]
    constructor
    · intro h
      cases h
    · intro h
      cases h
  | a :: as, b :: bs => by
    simp only [charsLt]
    rcases lt_trichotomy a b with hab | rfl | hab
    · rw [if_pos hab]
      exact ⟨fun _ => List.Lex.rel hab, fun _ => rfl⟩

    · rw [if_neg (lt_irrefl a), if_neg (lt_irrefl a)]
      constructor
      · intro h
        exact List.Lex.cons ((charsLt_iff_lex as bs).mp h)
      · intro h
        cases h with
        | cons h => exact (charsLt_iff_lex as bs).mpr h
        | rel h => exact absurd h (lt_irrefl a)
    · rw [if_neg (asymm hab), if_pos hab]
      constructor
      · intro h
        cases h
      · intro h
        cases h with
        | cons h2 => exact absurd hab (lt_irrefl a)
        | rel h2 => exact absurd h2 (asymm hab)

theorem strLt_iff (a b : String) : strLt a b = true ↔ a < b := by
  rw [String.lt_iff_toList_lt]
  exact charsLt_iff_lex a.data b.data

/-- The order described by the claim for query pairs: ascending by
`(length(key) + length(value), (key, value))` — shortest combined length
first, ties broken lexicographically on the pair. -/
def SortKeyLe (p q : String × String) : Prop :=
  p.1.length + p.2.length < q.1.length + q.2.length ∨
    (p.1.length + p.2.length = q.1.length + q.2.length ∧
      (p.1 < q.1 ∨ (p.1 = q.1 ∧ (p.2 < q.2 ∨ p.2 = q.2))))

theorem pairLe_iff (p q : String × String) : PairLe p q ↔ SortKeyLe p q := by
  simp only [PairLe, pairLeB, SortKeyLe, Bool.or_eq_true, Bool.and_eq_true,
    decide_eq_true_eq, strLt_iff]

instance : IsTotal (String × String) PairLe := by
  constructor
  intro p q
  rw [pairLe_iff, pairLe_iff]
  rcases Nat.lt_trichotomy (p.1.length + p.2.length) (q.1.length + q.2.length) with h | h | h
  · exact Or.inl (Or.inl h)
  · rcases lt_trichotomy p.1 q.1 with h1 | h1 | h1
    · exact Or.inl (Or.inr ⟨h, Or.inl h1⟩)
    · rcases lt_trichotomy p.2 q.2 with h2 | h2 | h2
      · exact Or.inl (Or.inr ⟨h, Or.inr ⟨h1, Or.inl h2⟩⟩)
      · exact Or.inl (Or.inr ⟨h, Or.inr ⟨h1, Or.inr h2⟩⟩)
      · exact Or.inr (Or.inr ⟨h.symm, Or.inr ⟨h1.symm, Or.inl h2⟩⟩)
    · exact Or.inr (Or.inr ⟨h.symm, Or.inl h1⟩)
  · exact Or.inr (Or.inl h)

instance : IsTrans (String × String) PairLe := by
  constructor
  intro p q r hpq hqr
  rw [pairLe_iff] at hpq hqr ⊢
  rcases hpq with h1 | ⟨e1, l1⟩
  · rcases hqr with h2 | ⟨e2, _⟩
    · exact Or.inl (h1.trans h2)
    · exact Or.inl (e2 ▸ h1)
  · rcases hqr with h2 | ⟨e2, l2⟩
    · exact Or.inl (e1 ▸ h2)
    · refine Or.inr ⟨e1.trans e2, ?_⟩
      rcases l1 with s1 | ⟨f1, t1⟩
      · rcases l2 with s2 | ⟨f2, _⟩
        · exact Or.inl (s1.trans s2)
        · exact Or.inl (f2 ▸ s1)
      · rcases l2 with s2 | ⟨f2, t2⟩
        · exact Or.inl (f1 ▸ s2)
        · refine Or.inr ⟨f1.trans f2, ?_⟩
          rcases t1 with u1 | u1
          · rcases t2 with u2 | u2
            · exact Or.inl (u1.trans u2)
            · exact Or.inl (u2 ▸ u1)
          · rcases t2 with u2 | u2
            · exact Or.inl (u1 ▸ u2)
            · exact Or.inr (u1.trans u2)

theorem sortPairs_perm (pairs : List (String × String)) : (sortPairs pairs).Perm pairs :=
  List.perm_insertionSort PairLe pairs

theorem sortPairs_sorted (pairs : List (String × String)) :
    (sortPairs pairs).Sorted SortKeyLe := by
  have h := List.sorted_insertionSort PairLe pairs
  exact h.imp (fun hab => (pairLe_iff _ _).mp hab)

/-- The concrete example record of the claim: a span named `GET` with
message `GET`, method `GET`, route `/x` and URL `http://h/x?b=22&a=1`. -/
def c5Rec : ReadableSpanDict :=
  { baseRec with
      name := "GET"
      attributes := [(ATTRIBUTES_MESSAGE_KEY, .str "GET"), ("http.method", .str "GET"),
                     ("http.route", .str "/x"), ("http.url", .str "http://h/x?b=22&a=1")] }

/-- The claim's expected result: name `GET /x`, message
`GET /x ? a='1' & b='22'`, with the derived `http.target` recorded. -/
def c5Expected : ReadableSpanDict :=
  { c5Rec with
      name := "GET /x"
      attributes := [(ATTRIBUTES_MESSAGE_KEY, .str "GET /x ? a='1' & b='22'"),
                     ("http.method", .str "GET"), ("http.route", .str "/x"),
                     ("http.url", .str "http://h/x?b=22&a=1"), ("http.target", .str "/x")] }

/-- **C5**: when the HTTP normalizer appends query parameters to the
message, the (key, value) pairs parsed from the URL's query string are
sorted ascending by `(length(key) + length(value), (key, value))`, each key
and value is independently truncated to 20 characters with a middle
ellipsis, and they are appended as ` ? k1='v1' & k2='v2' & ...` (values
quoted by Python repr); in particular the spec's concrete example record
gets name `GET /x` and message `GET /x ? a='1' & b='22'`. -/
theorem c5_http_query_params :
    (∀ qs : String,
      (sortPairs ((parse_qs qs).map (fun kv => kv.2.map (fun v => (kv.1, v)))).flatten).Perm
          ((parse_qs qs).map (fun kv => kv.2.map (fun v => (kv.1, v)))).flatten ∧
        (sortPairs ((parse_qs qs).map (fun kv => kv.2.map (fun v => (kv.1, v)))).flatten).Sorted
          SortKeyLe) ∧
    (∀ (message t u : String) (pr : UrlResult),
      endsWithS message t = true → urlparse u = .ok pr →
      parse_qs pr.query ≠ [] → endsWithS t pr.query = false →
      httpQueryAppend message (some t) (some u) =
        .ok (message ++ " ? " ++ String.intercalate " & "
          ((((sortPairs ((parse_qs pr.query).map (fun kv => kv.2.map (fun v => (kv.1, v)))).flatten).map
              (fun p => (truncate_string p.1 20 "…", truncate_string p.2 20 "…"))).map
            (fun p => p.1 ++ "=" ++ pyRepr p.2))))) ∧
    tweak_http_spans c5Rec = .ok c5Expected := by
  refine ⟨?_, ?_, ?_⟩
  · intro qs
    exact ⟨sortPairs_perm _, sortPairs_sorted _⟩
  · intro message t u pr hends hurl hqp hnq
    unfold httpQueryAppend
    dsimp only
    rw [if_pos hends, hurl]
    dsimp only
    rw [if_pos (by simp [hqp, hnq])]
    rfl
  · rfl

/-- Witness for C5 at the concrete example: the query-append step produces
exactly the sorted, truncated, repr-quoted rendering. -/
theorem c5_http_query_params_witness :
    httpQueryAppend "GET /x" (some "/x") (some "http://h/x?b=22&a=1") =
      .ok ("GET /x" ++ " ? " ++ String.intercalate " & "
        ((((sortPairs ((parse_qs "b=22&a=1").map (fun kv => kv.2.map (fun v => (kv.1, v)))).flatten).map
            (fun p => (truncate_string p.1 20 "…", truncate_string p.2 20 "…"))).map
          (fun p => p.1 ++ "=" ++ pyRepr p.2)))) :=
  c5_http_query_params.2.1 "GET /x" "/x" "http://h/x?b=22&a=1"
    ⟨"http", "h", "/x", "", "b=22&a=1", ""⟩ (by decide) (by decide) (by decide) (by decide)

/-! ## C3: idempotence of the end-time rule sequence

The claim is false in general (the ASGI tweak can fire again on its own
output); the machinery below proves the amended claim: idempotence for
records outside the ASGI/SQLAlchemy instrumentation scopes, with a
summarizer that never produces a summary and duplicate-free attribute
keys. -/
theorem getAttr_cons (e : String × AttrValue) (t : AttrMap) (k : String) :
    getAttr (e :: t) k = if e.1 = k then some e.2 else getAttr t k := by
  by_cases he : e.1 = k <;> simp [getAttr, List.find?_cons, he]

theorem hasKey_cons (e : String × AttrValue) (t : AttrMap) (k : String) :
    hasKey (e :: t) k = (decide (e.1 = k) || hasKey t k) := by
  simp [hasKey]

theorem hasKey_eq_isSome (m : AttrMap) (k : String) : hasKey m k = (getAttr m k).isSome := by
  induction m with
  | nil => rfl
  | cons e t ih =>
    rw [hasKey_cons, getAttr_cons]
    by_cases he : e.1 = k <;> simp [he, ih]

theorem getAttr_eq_none_of_not_hasKey {m : AttrMap} {k : String} (hk : hasKey m k = false) :
    getAttr m k = none := by
  have h := hasKey_eq_isSome m k
  rw [hk] at h
  exact Option.not_isSome_iff_eq_none.mp (by simp [← h])

theorem not_mem_keys_of_not_hasKey {m : AttrMap} {k : String} (hk : hasKey m k = false) :
    k ∉ m.map Prod.fst := by
  intro hmem
  rw [List.mem_map] at hmem
  obtain ⟨e, he, hk'⟩ := hmem
  simp only [hasKey, List.any_eq_false, decide_eq_true_eq] at hk
  exact hk e he hk'

theorem getAttr_append (m m' : AttrMap) (k : String) :
    getAttr (m ++ m') k = ((getAttr m k).or (getAttr m' k)) := by
  induction m with
  | nil => simp [getAttr]
  | cons e t ih =>
    rw [List.cons_append, getAttr_cons, getAttr_cons]
    by_cases he : e.1 = k <;> simp [he, ih]

theorem getAttr_mapSet_same : ∀ (m : AttrMap) (k : String) (v : AttrValue),
    hasKey m k = true →
    getAttr (m.map (fun e => if e.1 = k then (k, v) else e)) k = some v
  | [], k, v, hk => by simp [hasKey] at hk
  | e :: t, k, v, hk => by
    rw [List.map_cons, getAttr_cons]
    by_cases he : e.1 = k
    · rw [if_pos he]
      simp
    · rw [if_neg he, if_neg he]
      exact getAttr_mapSet_same t k v (by rw [hasKey_cons] at hk; simpa [he] using hk)

theorem getAttr_mapSet_ne : ∀ (m : AttrMap) (k k' : String) (v : AttrValue), k' ≠ k →
    getAttr (m.map (fun e => if e.1 = k then (k, v) else e)) k' = getAttr m k'
  | [], _, _, _, _ => rfl
  | e :: t, k, k', v, h => by
    rw [List.map_cons, getAttr_cons, getAttr_cons]
    by_cases he : e.1 = k
    · rw [if_pos he]
      rw [show ((k, v) : String × AttrValue).1 = k from rfl]
      rw [if_neg (fun hh => h hh.symm), if_neg (by rw [he]; exact fun hh => h hh.symm)]
      exact getAttr_mapSet_ne t k k' v h
    · rw [if_neg he]
      by_cases he' : e.1 = k'
      · rw [if_pos he', if_pos he']
      · rw [if_neg he', if_neg he']
        exact getAttr_mapSet_ne t k k' v h

theorem getAttr_setAttr_same (m : AttrMap) (k : String) (v : AttrValue) :
    getAttr (setAttr m k v) k = some v := by
  unfold setAttr
  split
  · exact getAttr_mapSet_same m k v (by assumption)
  · rename_i hk
    rw [getAttr_append, getAttr_eq_none_of_not_hasKey (by simpa using hk)]
    simp [getAttr_cons]

theorem getAttr_setAttr_ne (m : AttrMap) (k k' : String) (v : AttrValue) (h : k' ≠ k) :
    getAttr (setAttr m k v) k' = getAttr m k' := by
  unfold setAttr
  split
  · exact getAttr_mapSet_ne m k k' v h
  · rw [getAttr_append]
    rw [show getAttr [(k, v)] k' = none by
      rw [getAttr_cons]
      rw [if_neg (fun hh => h hh.symm)]
      rfl]
    exact Option.or_none

theorem mapSet_of_not_mem : ∀ (m : AttrMap) (k : String) (v : AttrValue),
    k ∉ m.map Prod.fst → m.map (fun e => if e.1 = k then (k, v) else e) = m
  | [], _, _, _ => rfl
  | e :: t, k, v, h => by
    rw [List.map_cons] at h ⊢
    rw [List.mem_cons] at h
    push_neg at h
    rw [if_neg (fun hh => h.1 hh.symm)]
    rw [mapSet_of_not_mem t k v h.2]

theorem setAttr_self : ∀ {m : AttrMap} {k : String} {v : AttrValue},
    (m.map Prod.fst).Nodup → getAttr m k = some v → setAttr m k v = m := by
  intro m k v hnd h
  unfold setAttr
  rw [if_pos (by rw [hasKey_eq_isSome, h]; rfl)]
  induction m with
  | nil => cases h
  | cons e t ih =>
    obtain ⟨a, b⟩ := e
    rw [List.map_cons] at hnd ⊢
    rw [List.nodup_cons] at hnd
    rw [getAttr_cons] at h
    by_cases he : (a, b).1 = k
    · rw [if_pos he] at h ⊢
      injection h with h
      dsimp only at he
      subst he
      subst h
      rw [mapSet_of_not_mem t a b hnd.1]
    · rw [if_neg he] at h ⊢
      rw [ih hnd.2 h]

theorem nodupKeys_setAttr (m : AttrMap) (k : String) (v : AttrValue)
    (hnd : (m.map Prod.fst).Nodup) : ((setAttr m k v).map Prod.fst).Nodup := by
  unfold setAttr
  split
  · rw [List.map_map]
    rw [List.map_congr_left (g := Prod.fst) (fun e _ => by
      by_cases he : e.1 = k
      · simp [he, Function.comp]
      · simp [he, Function.comp])]
    exact hnd
  · rename_i hk
    rw [List.map_append]
    exact List.Nodup.append hnd (List.nodup_singleton k)
      (List.disjoint_singleton.mpr (not_mem_keys_of_not_hasKey (by simpa using hk)))

theorem dropRight_append (s suf : String) :
    dropRightChars (s ++ suf) suf.length = s := by
  apply String.ext
  show (s ++ suf).data.take ((s ++ suf).data.length - suf.length) = s.data
  rw [String.data_append]
  have hlen : (s.data ++ suf.data).length - suf.length = s.data.length := by
    rw [List.length_append]
    show s.data.length + suf.data.length - suf.data.length = s.data.length
    omega
  rw [hlen, List.take_left]

theorem getLast?_contains {l l2 : List String} {a : String} (h : l.getLast? = some a) :
    (l ++ l2).contains a = true := by
  have hm : a ∈ l ++ l2 :=
    List.mem_append_left l2 (List.mem_of_mem_getLast? (Option.mem_def.mpr h))
  exact List.elem_eq_true_of_mem hm

theorem optTruthy_of_truthyStr {o : Option AttrValue} {u : String}
    (h : truthyStr o = some u) : optTruthy o = true := by
  rcases o with _ | v
  · cases h
  · rcases v with t | n | b | l
    · by_cases ht : t = ""
      · subst ht
        cases h
      · simp [optTruthy, AttrValue.truthy, ht]
    · cases h
    · cases h
    · cases h

/-- The parts of a record read by the HTTP normalizer: the name and the
seven attribute keys it consults. -/
def HttpViewEq (s t : ReadableSpanDict) : Prop :=
  s.name = t.name ∧
  getAttr s.attributes ATTRIBUTES_MESSAGE_TEMPLATE_KEY =
    getAttr t.attributes ATTRIBUTES_MESSAGE_TEMPLATE_KEY ∧
  getAttr s.attributes ATTRIBUTES_SPAN_TYPE_KEY = getAttr t.attributes ATTRIBUTES_SPAN_TYPE_KEY ∧
  getAttr s.attributes ATTRIBUTES_MESSAGE_KEY = getAttr t.attributes ATTRIBUTES_MESSAGE_KEY ∧
  getAttr s.attributes "http.method" = getAttr t.attributes "http.method" ∧
  getAttr s.attributes "http.route" = getAttr t.attributes "http.route" ∧
  getAttr s.attributes "http.target" = getAttr t.attributes "http.target" ∧
  getAttr s.attributes "http.url" = getAttr t.attributes "http.url"

theorem httpTail_stable {r r' s : ReadableSpanDict} {pend : Bool} {nameR nameS : String}
    (h : httpTail r pend nameR = .ok r')
    (hv : HttpViewEq s r')
    (hnd : (s.attributes.map Prod.fst).Nodup)
    (hnameR : nameR =
      if pend then dropRightChars r.name PENDING_SPAN_NAME_SUFFIX.length else r.name)
    (hnameS : nameS =
      if pend then dropRightChars s.name PENDING_SPAN_NAME_SUFFIX.length else s.name) :
    httpTail s pend nameS = .ok s := by
  obtain ⟨hvName, hvTemp, hvType, hvMsg, hvMethod, hvRoute, hvTarget, hvUrl⟩ := hv
  unfold httpTail at h
  dsimp only at h
  by_cases hMsg : getAttr r.attributes ATTRIBUTES_MESSAGE_KEY = some (.str nameR)
  case neg =>
    rw [if_pos hMsg] at h
    injection h with h2
    subst h2
    have hsr : nameS = nameR := by
      rw [hnameS, hnameR, hvName]
    unfold httpTail
    dsimp only
    rw [if_pos (by rw [hvMsg, hsr]; exact hMsg)]
  case pos =>
    rw [if_neg (not_not_intro hMsg)] at h
    by_cases hPres :
        (optTruthy (getAttr r.attributes "http.method") ||
          optTruthy (getAttr r.attributes "http.route") ||
          optTruthy (getAttr r.attributes "http.target") ||
          optTruthy (getAttr r.attributes "http.url")) = true
    case neg =>
      rw [if_pos (by simpa using hPres)] at h
      injection h with h2
      subst h2
      have hsr : nameS = nameR := by
        rw [hnameS, hnameR, hvName]
      unfold httpTail
      dsimp only
      rw [if_neg (not_not_intro (by rw [hvMsg, hsr]; exact hMsg))]
      have hOrF := eq_false_of_ne_true hPres
      rw [if_pos (by rw [hvMethod, hvRoute, hvTarget, hvUrl, hOrF]; rfl)]
    case pos =>
      rw [hPres] at h
      rw [if_neg (by decide)] at h
      set D := (if optTruthy (getAttr r.attributes "http.target") then none
        else match truthyStr (getAttr r.attributes "http.url") with
          | some u => match urlparse u with
            | .ok pr => some pr.path
            | .error _ => none
          | none => none : Option String) with hD
      rcases hDv : D with _ | p
      case none =>
        rw [hDv] at h
        dsimp only at h
        by_cases hG : (!(httpNames (getAttr r.attributes "http.method")
            (getAttr r.attributes "http.route") ++
            httpMessages (getAttr r.attributes "http.method")
            (getAttr r.attributes "http.target")).contains nameR) = true
        · rw [if_pos hG] at h
          injection h with h2
          subst h2
          dsimp only at hvName hvMsg hvMethod hvRoute hvTarget hvUrl
          have hsr : nameS = nameR := by rw [hnameS, hnameR, hvName]
          unfold httpTail
          dsimp only
          rw [hvMsg, hvMethod, hvRoute, hvTarget, hvUrl, hsr]
          rw [if_neg (not_not_intro hMsg), hPres]
          rw [if_neg (by decide)]
          rw [← hD, hDv]
          dsimp only
          rw [if_pos hG]
        · rw [if_neg hG] at h
          rcases hML : (httpMessages (getAttr r.attributes "http.method")
              (getAttr r.attributes "http.target")).getLast? with _ | msgBest
          · rw [hML] at h
            dsimp only at h
            rcases hNL : (httpNames (getAttr r.attributes "http.method")
                (getAttr r.attributes "http.route")).getLast? with _ | best
            · rw [hNL] at h
              dsimp only at h
              injection h with h2
              subst h2
              dsimp only at hvName hvMsg hvMethod hvRoute hvTarget hvUrl
              have hsr : nameS = nameR := by rw [hnameS, hnameR, hvName]
              unfold httpTail
              dsimp only
              rw [hvMsg, hvMethod, hvRoute, hvTarget, hvUrl, hsr]
              rw [if_neg (not_not_intro hMsg), hPres]
              rw [if_neg (by decide)]
              rw [← hD, hDv]
              dsimp only
              rw [if_neg hG, hML, hNL]
            · rw [hNL] at h
              dsimp only at h
              by_cases hB : best = nameR
              · rw [if_pos hB] at h
                injection h with h2
                subst h2
                dsimp only at hvName hvMsg hvMethod hvRoute hvTarget hvUrl
                have hsr : nameS = nameR := by rw [hnameS, hnameR, hvName]
                unfold httpTail
                dsimp only
                rw [hvMsg, hvMethod, hvRoute, hvTarget, hvUrl, hsr]
                rw [if_neg (not_not_intro hMsg), hPres]
                rw [if_neg (by decide)]
                rw [← hD, hDv]
                dsimp only
                rw [if_neg hG, hML, hNL]
                dsimp only
                rw [if_pos hB]
              · rw [if_neg hB] at h
                injection h with h2
                subst h2
                dsimp only at hvName hvMsg hvMethod hvRoute hvTarget hvUrl
                have hsr : nameS = best := by
                  rw [hnameS, hvName]
                  cases pend
                  · simp
                  · simp [dropRight_append]
                unfold httpTail
                dsimp only
                rw [hvMsg, hsr]
                rw [if_pos (by
                  rw [hMsg]
                  intro hc
                  injection hc with hc
                  injection hc with hc
                  exact hB hc.symm)]
          · rw [hML] at h
            dsimp only at h
            rcases hQA : httpQueryAppend msgBest (truthyStr (getAttr r.attributes "http.target"))
                (truthyStr (getAttr r.attributes "http.url")) with e | message
            · rw [hQA] at h
              dsimp only at h
              cases h
            · rw [hQA] at h
              dsimp only at h
              by_cases hF : message = nameR
              · rw [if_pos hF] at h
                rcases hNL : (httpNames (getAttr r.attributes "http.method")
                    (getAttr r.attributes "http.route")).getLast? with _ | best
                · rw [hNL] at h
                  dsimp only at h
                  injection h with h2
                  subst h2
                  dsimp only at hvName hvMsg hvMethod hvRoute hvTarget hvUrl
                  have hsr : nameS = nameR := by rw [hnameS, hnameR, hvName]
                  unfold httpTail
                  dsimp only
                  rw [hvMsg, hvMethod, hvRoute, hvTarget, hvUrl, hsr]
                  rw [if_neg (not_not_intro hMsg), hPres]
                  rw [if_neg (by decide)]
                  rw [← hD, hDv]
                  dsimp only
                  rw [if_neg hG, hML]
                  dsimp only
                  rw [hQA]
                  dsimp only
                  rw [if_pos hF, hNL]
                · rw [hNL] at h
                  dsimp only at h
                  by_cases hB : best = nameR
                  · rw [if_pos hB] at h
                    injection h with h2
                    subst h2
                    dsimp only at hvName hvMsg hvMethod hvRoute hvTarget hvUrl
                    have hsr : nameS = nameR := by rw [hnameS, hnameR, hvName]
                    unfold httpTail
                    dsimp only
                    rw [hvMsg, hvMethod, hvRoute, hvTarget, hvUrl, hsr]
                    rw [if_neg (not_not_intro hMsg), hPres]
                    rw [if_neg (by decide)]
                    rw [← hD, hDv]
                    dsimp only
                    rw [if_neg hG, hML]
                    dsimp only
                    rw [hQA]
                    dsimp only
                    rw [if_pos hF, hNL]
                    dsimp only
                    rw [if_pos hB]
                  · rw [if_neg hB] at h
                    injection h with h2
                    subst h2
                    dsimp only at hvName hvMsg hvMethod hvRoute hvTarget hvUrl
                    have hsr : nameS = best := by
                      rw [hnameS, hvName]
                      cases pend
                      · simp
                      · simp [dropRight_append]
                    unfold httpTail
                    dsimp only
                    rw [hvMsg, hsr]
                    rw [if_pos (by
                      rw [hMsg]
                      intro hc
                      injection hc with hc
                      injection hc with hc
                      exact hB hc.symm)]
              · rw [if_neg hF] at h
                rcases hNL : (httpNames (getAttr r.attributes "http.method")
                    (getAttr r.attributes "http.route")).getLast? with _ | best
                · rw [hNL] at h
                  dsimp only at h
                  injection h with h2
                  subst h2
                  dsimp only at hvName hvMsg hvMethod hvRoute hvTarget hvUrl
                  rw [getAttr_setAttr_same] at hvMsg
                  rw [getAttr_setAttr_ne _ _ _ _ (by decide)] at hvMethod
                  rw [getAttr_setAttr_ne _ _ _ _ (by decide)] at hvRoute
                  rw [getAttr_setAttr_ne _ _ _ _ (by decide)] at hvTarget
                  rw [getAttr_setAttr_ne _ _ _ _ (by decide)] at hvUrl
                  have hsr : nameS = nameR := by rw [hnameS, hnameR, hvName]
                  unfold httpTail
                  dsimp only
                  rw [hvMsg, hsr]
                  rw [if_pos (by
                    intro hc
                    injection hc with hc
                    injection hc with hc
                    exact hF hc)]
                · rw [hNL] at h
                  dsimp only at h
                  by_cases hB : best = nameR
                  · rw [if_pos hB] at h
                    injection h with h2
                    subst h2
                    dsimp only at hvName hvMsg hvMethod hvRoute hvTarget hvUrl
                    rw [getAttr_setAttr_same] at hvMsg
                    have hsr : nameS = nameR := by rw [hnameS, hnameR, hvName]
                    unfold httpTail
                    dsimp only
                    rw [hvMsg, hsr]
                    rw [if_pos (by
                      intro hc
                      injection hc with hc
                      injection hc with hc
                      exact hF hc)]
                  · rw [if_neg hB] at h
                    injection h with h2
                    subst h2
                    dsimp only at hvName hvMsg hvMethod hvRoute hvTarget hvUrl
                    rw [getAttr_setAttr_same] at hvMsg
                    rw [getAttr_setAttr_ne _ _ _ _ (by decide)] at hvMethod
                    rw [getAttr_setAttr_ne _ _ _ _ (by decide)] at hvRoute
                    rw [getAttr_setAttr_ne _ _ _ _ (by decide)] at hvTarget
                    rw [getAttr_setAttr_ne _ _ _ _ (by decide)] at hvUrl
                    have hsr : nameS = best := by
                      rw [hnameS, hvName]
                      cases pend
                      · simp
                      · simp [dropRight_append]
                    by_cases hMB : message = best
                    · unfold httpTail
                      dsimp only
                      rw [hvMsg, hvMethod, hvRoute, hvTarget, hvUrl, hsr]
                      rw [if_neg (not_not_intro (by rw [hMB])), hPres]
                      rw [if_neg (by decide)]
                      rw [← hD, hDv]
                      dsimp only
                      rw [getLast?_contains hNL]
                      rw [if_neg (by decide)]
                      rw [hML]
                      dsimp only
                      rw [hQA]
                      dsimp only
                      rw [if_pos hMB, hNL]
                      dsimp only
                      rw [if_pos rfl]
                    · unfold httpTail
                      dsimp only
                      rw [hvMsg, hsr]
                      rw [if_pos (by
                        intro hc
                        injection hc with hc
                        injection hc with hc
                        exact hMB hc)]
      case some =>
        rw [hDv] at h
        dsimp only at h
        rw [hD] at hDv
        have hTargEq : (match (if optTruthy (some (AttrValue.str p)) = true then none
              else match truthyStr (getAttr r.attributes "http.url") with
                | some u =>
                  match urlparse u with
                  | Except.ok pr => some pr.path
                  | Except.error _ => none
                | none => none : Option String) with
            | some q => some (AttrValue.str q)
            | none => some (AttrValue.str p)) = some (AttrValue.str p) := by
          by_cases hp : p = ""
          · subst hp
            rw [if_neg (by decide)]
            by_cases hT0 : optTruthy (getAttr r.attributes "http.target") = true
            · rw [if_pos hT0] at hDv
              cases hDv
            · rw [if_neg hT0] at hDv
              rcases hU : truthyStr (getAttr r.attributes "http.url") with _ | u
              · rw [hU] at hDv
              · rw [hU] at hDv
                dsimp only at hDv ⊢
                rcases hP : urlparse u with e | pr
                · rw [hP] at hDv
                · rw [hP] at hDv
                  dsimp only at hDv ⊢
                  injection hDv with hpv
                  rw [hpv]
          · rw [if_pos (by simp [optTruthy, AttrValue.truthy, hp])]
        have hAttrEq : getAttr s.attributes "http.target" = some (AttrValue.str p) →
            (match (if optTruthy (some (AttrValue.str p)) = true then none
              else match truthyStr (getAttr r.attributes "http.url") with
                | some u =>
                  match urlparse u with
                  | Except.ok pr => some pr.path
                  | Except.error _ => none
                | none => none : Option String) with
            | some q => setAttr s.attributes "http.target" (AttrValue.str q)
            | none => s.attributes) = s.attributes := by
          intro hsT
          by_cases hp : p = ""
          · subst hp
            rw [if_neg (by decide)]
            by_cases hT0 : optTruthy (getAttr r.attributes "http.target") = true
            · rw [if_pos hT0] at hDv
              cases hDv
            · rw [if_neg hT0] at hDv
              rcases hU : truthyStr (getAttr r.attributes "http.url") with _ | u
              · rw [hU] at hDv
              · rw [hU] at hDv
                dsimp only at hDv ⊢
                rcases hP : urlparse u with e | pr
                · rw [hP] at hDv
                · rw [hP] at hDv
                  dsimp only at hDv ⊢
                  injection hDv with hpv
                  rw [hpv]
                  exact setAttr_self hnd hsT
          · rw [if_pos (by simp [optTruthy, AttrValue.truthy, hp])]
        have hPresS : (optTruthy (getAttr r.attributes "http.method") ||
            optTruthy (getAttr r.attributes "http.route") ||
            optTruthy (some (AttrValue.str p)) ||
            optTruthy (getAttr r.attributes "http.url")) = true := by
          by_cases hp : p = ""
          · subst hp
            by_cases hT0 : optTruthy (getAttr r.attributes "http.target") = true
            · rw [if_pos hT0] at hDv
              cases hDv
            · rw [if_neg hT0] at hDv
              rcases hU : truthyStr (getAttr r.attributes "http.url") with _ | u
              · rw [hU] at hDv
                simp at hDv
              · rw [optTruthy_of_truthyStr hU]
                simp
          · simp [optTruthy, AttrValue.truthy, hp]
        by_cases hG : (!(httpNames (getAttr r.attributes "http.method")
            (getAttr r.attributes "http.route") ++
            httpMessages (getAttr r.attributes "http.method")
            (some (AttrValue.str p))).contains nameR) = true
        · rw [if_pos hG] at h
          injection h with h2
          subst h2
          dsimp only at hvName hvMsg hvMethod hvRoute hvTarget hvUrl
          rw [getAttr_setAttr_ne _ _ _ _ (by decide)] at hvMsg
          rw [getAttr_setAttr_ne _ _ _ _ (by decide)] at hvMethod
          rw [getAttr_setAttr_ne _ _ _ _ (by decide)] at hvRoute
          rw [getAttr_setAttr_same] at hvTarget
          rw [getAttr_setAttr_ne _ _ _ _ (by decide)] at hvUrl
          have hsr : nameS = nameR := by rw [hnameS, hnameR, hvName]
          unfold httpTail
          dsimp only
          rw [hvMsg, hvMethod, hvRoute, hvTarget, hvUrl, hsr]
          rw [if_neg (not_not_intro hMsg), hPresS]
          rw [if_neg (by decide)]
          rw [hTargEq, hAttrEq hvTarget]
          rw [if_pos hG]
        · rw [if_neg hG] at h
          rcases hML : (httpMessages (getAttr r.attributes "http.method")
              (some (AttrValue.str p))).getLast? with _ | msgBest
          · rw [hML] at h
            dsimp only at h
            rcases hNL : (httpNames (getAttr r.attributes "http.method")
                (getAttr r.attributes "http.route")).getLast? with _ | best
            · rw [hNL] at h
              dsimp only at h
              injection h with h2
              subst h2
              dsimp only at hvName hvMsg hvMethod hvRoute hvTarget hvUrl
              rw [getAttr_setAttr_ne _ _ _ _ (by decide)] at hvMsg
              rw [getAttr_setAttr_ne _ _ _ _ (by decide)] at hvMethod
              rw [getAttr_setAttr_ne _ _ _ _ (by decide)] at hvRoute
              rw [getAttr_setAttr_same] at hvTarget
              rw [getAttr_setAttr_ne _ _ _ _ (by decide)] at hvUrl
              have hsr : nameS = nameR := by rw [hnameS, hnameR, hvName]
              unfold httpTail
              dsimp only
              rw [hvMsg, hvMethod, hvRoute, hvTarget, hvUrl, hsr]
              rw [if_neg (not_not_intro hMsg), hPresS]
              rw [if_neg (by decide)]
              rw [hTargEq, hAttrEq hvTarget]
              rw [if_neg hG, hML, hNL]
            · rw [hNL] at h
              dsimp only at h
              by_cases hB : best = nameR
              · rw [if_pos hB] at h
                injection h with h2
                subst h2
                dsimp only at hvName hvMsg hvMethod hvRoute hvTarget hvUrl
                rw [getAttr_setAttr_ne _ _ _ _ (by decide)] at hvMsg
                rw [getAttr_setAttr_ne _ _ _ _ (by decide)] at hvMethod
                rw [getAttr_setAttr_ne _ _ _ _ (by decide)] at hvRoute
                rw [getAttr_setAttr_same] at hvTarget
                rw [getAttr_setAttr_ne _ _ _ _ (by decide)] at hvUrl
                have hsr : nameS = nameR := by rw [hnameS, hnameR, hvName]
                unfold httpTail
                dsimp only
                rw [hvMsg, hvMethod, hvRoute, hvTarget, hvUrl, hsr]
                rw [if_neg (not_not_intro hMsg), hPresS]
                rw [if_neg (by decide)]
                rw [hTargEq, hAttrEq hvTarget]
                rw [if_neg hG, hML, hNL]
                dsimp only
                rw [if_pos hB]
              · rw [if_neg hB] at h
                injection h with h2
                subst h2
                dsimp only at hvName hvMsg hvMethod hvRoute hvTarget hvUrl
                rw [getAttr_setAttr_ne _ _ _ _ (by decide)] at hvMsg
                have hsr : nameS = best := by
                  rw [hnameS, hvName]
                  cases pend
                  · simp
                  · simp [dropRight_append]
                unfold httpTail
                dsimp only
                rw [hvMsg, hsr]
                rw [if_pos (by
                  rw [hMsg]
                  intro hc
                  injection hc with hc
                  injection hc with hc
                  exact hB hc.symm)]
          · rw [hML] at h
            dsimp only at h
            rcases hQA : httpQueryAppend msgBest (truthyStr (some (AttrValue.str p)))
                (truthyStr (getAttr r.attributes "http.url")) with e | message
            · rw [hQA] at h
              dsimp only at h
              cases h
            · rw [hQA] at h
              dsimp only at h
              by_cases hF : message = nameR
              · rw [if_pos hF] at h
                rcases hNL : (httpNames (getAttr r.attributes "http.method")
                    (getAttr r.attributes "http.route")).getLast? with _ | best
                · rw [hNL] at h
                  dsimp only at h
                  injection h with h2
                  subst h2
                  dsimp only at hvName hvMsg hvMethod hvRoute hvTarget hvUrl
                  rw [getAttr_setAttr_ne _ _ _ _ (by decide)] at hvMsg
                  rw [getAttr_setAttr_ne _ _ _ _ (by decide)] at hvMethod
                  rw [getAttr_setAttr_ne _ _ _ _ (by decide)] at hvRoute
                  rw [getAttr_setAttr_same] at hvTarget
                  rw [getAttr_setAttr_ne _ _ _ _ (by decide)] at hvUrl
                  have hsr : nameS = nameR := by rw [hnameS, hnameR, hvName]
                  unfold httpTail
                  dsimp only
                  rw [hvMsg, hvMethod, hvRoute, hvTarget, hvUrl, hsr]
                  rw [if_neg (not_not_intro hMsg), hPresS]
                  rw [if_neg (by decide)]
                  rw [hTargEq, hAttrEq hvTarget]
                  rw [if_neg hG, hML]
                  dsimp only
                  rw [hQA]
                  dsimp only
                  rw [if_pos hF, hNL]
                · rw [hNL] at h
                  dsimp only at h
                  by_cases hB : best = nameR
                  · rw [if_pos hB] at h
                    injection h with h2
                    subst h2
                    dsimp only at hvName hvMsg hvMethod hvRoute hvTarget hvUrl
                    rw [getAttr_setAttr_ne _ _ _ _ (by decide)] at hvMsg
                    rw [getAttr_setAttr_ne _ _ _ _ (by decide)] at hvMethod
                    rw [getAttr_setAttr_ne _ _ _ _ (by decide)] at hvRoute
                    rw [getAttr_setAttr_same] at hvTarget
                    rw [getAttr_setAttr_ne _ _ _ _ (by decide)] at hvUrl
                    have hsr : nameS = nameR := by rw [hnameS, hnameR, hvName]
                    unfold httpTail
                    dsimp only
                    rw [hvMsg, hvMethod, hvRoute, hvTarget, hvUrl, hsr]
                    rw [if_neg (not_not_intro hMsg), hPresS]
                    rw [if_neg (by decide)]
                    rw [hTargEq, hAttrEq hvTarget]
                    rw [if_neg hG, hML]
                    dsimp only
                    rw [hQA]
                    dsimp only
                    rw [if_pos hF, hNL]
                    dsimp only
                    rw [if_pos hB]
                  · rw [if_neg hB] at h
                    injection h with h2
                    subst h2
                    dsimp only at hvName hvMsg hvMethod hvRoute hvTarget hvUrl
                    rw [getAttr_setAttr_ne _ _ _ _ (by decide)] at hvMsg
                    have hsr : nameS = best := by
                      rw [hnameS, hvName]
                      cases pend
                      · simp
                      · simp [dropRight_append]
                    unfold httpTail
                    dsimp only
                    rw [hvMsg, hsr]
                    rw [if_pos (by
                      rw [hMsg]
                      intro hc
                      injection hc with hc
                      injection hc with hc
                      exact hB hc.symm)]
              · rw [if_neg hF] at h
                rcases hNL : (httpNames (getAttr r.attributes "http.method")
                    (getAttr r.attributes "http.route")).getLast? with _ | best
                · rw [hNL] at h
                  dsimp only at h
                  injection h with h2
                  subst h2
                  dsimp only at hvName hvMsg hvMethod hvRoute hvTarget hvUrl
                  rw [getAttr_setAttr_same] at hvMsg
                  have hsr : nameS = nameR := by rw [hnameS, hnameR, hvName]
                  unfold httpTail
                  dsimp only
                  rw [hvMsg, hsr]
                  rw [if_pos (by
                    intro hc
                    injection hc with hc
                    injection hc with hc
                    exact hF hc)]
                · rw [hNL] at h
                  dsimp only at h
                  by_cases hB : best = nameR
                  · rw [if_pos hB] at h
                    injection h with h2
                    subst h2
                    dsimp only at hvName hvMsg hvMethod hvRoute hvTarget hvUrl
                    rw [getAttr_setAttr_same] at hvMsg
                    have hsr : nameS = nameR := by rw [hnameS, hnameR, hvName]
                    unfold httpTail
                    dsimp only
                    rw [hvMsg, hsr]
                    rw [if_pos (by
                      intro hc
                      injection hc with hc
                      injection hc with hc
                      exact hF hc)]
                  · rw [if_neg hB] at h
                    injection h with h2
                    subst h2
                    dsimp only at hvName hvMsg hvMethod hvRoute hvTarget hvUrl
                    rw [getAttr_setAttr_same] at hvMsg
                    rw [getAttr_setAttr_ne _ _ _ _ (by decide),
                      getAttr_setAttr_ne _ _ _ _ (by decide)] at hvMethod
                    rw [getAttr_setAttr_ne _ _ _ _ (by decide),
                      getAttr_setAttr_ne _ _ _ _ (by decide)] at hvRoute
                    rw [getAttr_setAttr_ne _ _ _ _ (by decide),
                      getAttr_setAttr_same] at hvTarget
                    rw [getAttr_setAttr_ne _ _ _ _ (by decide),
                      getAttr_setAttr_ne _ _ _ _ (by decide)] at hvUrl
                    have hsr : nameS = best := by
                      rw [hnameS, hvName]
                      cases pend
                      · simp
                      · simp [dropRight_append]
                    by_cases hMB : message = best
                    · unfold httpTail
                      dsimp only
                      rw [hvMsg, hvMethod, hvRoute, hvTarget, hvUrl, hsr]
                      rw [if_neg (not_not_intro (by rw [hMB])), hPresS]
                      rw [if_neg (by decide)]
                      rw [hTargEq, hAttrEq hvTarget]
                      rw [getLast?_contains hNL]
                      rw [if_neg (by decide)]
                      rw [hML]
                      dsimp only
                      rw [hQA]
                      dsimp only
                      rw [if_pos hMB, hNL]
                      dsimp only
                      rw [if_pos rfl]
                    · unfold httpTail
                      dsimp only
                      rw [hvMsg, hsr]
                      rw [if_pos (by
                        intro hc
                        injection hc with hc
                        injection hc with hc
                        exact hMB hc)]

theorem httpTail_getAttr_preserved {r r' : ReadableSpanDict} {pend : Bool} {nameR : String}
    (h : httpTail r pend nameR = .ok r') (k : String)
    (hk1 : k ≠ "http.target") (hk2 : k ≠ ATTRIBUTES_MESSAGE_KEY) :
    getAttr r'.attributes k = getAttr r.attributes k := by
  have g1 : ∀ (m : AttrMap) v, getAttr (setAttr m "http.target" v) k = getAttr m k :=
    fun m v => getAttr_setAttr_ne m _ k v hk1
  have g2 : ∀ (m : AttrMap) v, getAttr (setAttr m ATTRIBUTES_MESSAGE_KEY v) k = getAttr m k :=
    fun m v => getAttr_setAttr_ne m _ k v hk2
  unfold httpTail at h
  dsimp only at h
  repeat' split at h
  try any_goals (injection h with h2
                 subst h2
                 simp [g1, g2])
  try any_goals simp [g1, g2]
  all_goals cases h

theorem tweak_http_stable {r r' s : ReadableSpanDict}
    (h : tweak_http_spans r = .ok r') (hv : HttpViewEq s r')
    (hnd : (s.attributes.map Prod.fst).Nodup) :
    tweak_http_spans s = .ok s := by
  unfold tweak_http_spans at h ⊢
  dsimp only at h ⊢
  by_cases hT : hasKey r.attributes ATTRIBUTES_MESSAGE_TEMPLATE_KEY = true
  · rw [if_pos hT] at h
    injection h with h2
    subst h2
    rw [if_pos (by rw [hasKey_eq_isSome, hv.2.1, ← hasKey_eq_isSome]; exact hT)]
  · rw [if_neg hT] at h
    have hTempEq : getAttr s.attributes ATTRIBUTES_MESSAGE_TEMPLATE_KEY =
        getAttr r.attributes ATTRIBUTES_MESSAGE_TEMPLATE_KEY := by
      rw [hv.2.1, httpTail_getAttr_preserved h _ (by decide) (by decide)]
    have hTypeEq : getAttr s.attributes ATTRIBUTES_SPAN_TYPE_KEY =
        getAttr r.attributes ATTRIBUTES_SPAN_TYPE_KEY := by
      rw [hv.2.2.1, httpTail_getAttr_preserved h _ (by decide) (by decide)]
    rw [if_neg (by rw [hasKey_eq_isSome, hTempEq, ← hasKey_eq_isSome]; exact hT)]
    rw [hTypeEq]
    exact httpTail_stable h hv hnd rfl rfl

theorem reconcile_viewEq (t : ReadableSpanDict) :
    HttpViewEq (set_error_level_and_status t) t := by
  have g : ∀ (k : String), k ≠ ATTRIBUTES_LOG_LEVEL_NUM_KEY → ∀ v : AttrValue,
      getAttr (setAttr t.attributes ATTRIBUTES_LOG_LEVEL_NUM_KEY v) k = getAttr t.attributes k :=
    fun k hk v => getAttr_setAttr_ne _ _ _ _ hk
  unfold set_error_level_and_status
  dsimp only
  repeat' split
  all_goals first
    | exact ⟨rfl, rfl, rfl, rfl, rfl, rfl, rfl, rfl⟩
    | exact ⟨rfl, g _ (by decide) _, g _ (by decide) _, g _ (by decide) _, g _ (by decide) _,
        g _ (by decide) _, g _ (by decide) _, g _ (by decide) _⟩

theorem nodup_reconcile (t : ReadableSpanDict)
    (hnd : (t.attributes.map Prod.fst).Nodup) :
    ((set_error_level_and_status t).attributes.map Prod.fst).Nodup := by
  unfold set_error_level_and_status
  dsimp only
  repeat' split
  all_goals first
    | exact hnd
    | exact nodupKeys_setAttr _ _ _ hnd

set_option maxHeartbeats 2000000 in
theorem nodup_http {t t' : ReadableSpanDict}
    (h : tweak_http_spans t = .ok t') (hnd : (t.attributes.map Prod.fst).Nodup) :
    (t'.attributes.map Prod.fst).Nodup := by
  unfold tweak_http_spans httpTail at h
  dsimp only at h
  repeat' split at h
  try any_goals (injection h with h2
                 subst h2
                 first
                   | exact hnd
                   | exact nodupKeys_setAttr _ _ _ hnd
                   | exact nodupKeys_setAttr _ _ _ (nodupKeys_setAttr _ _ _ hnd))
  try any_goals first
    | exact hnd
    | exact nodupKeys_setAttr _ _ _ hnd
    | exact nodupKeys_setAttr _ _ _ (nodupKeys_setAttr _ _ _ hnd)
  all_goals cases h

theorem getAttr_merge_level (m : AttrMap) (lvl : String) :
    getAttr (mergeAttrs m (log_level_attributes lvl)) ATTRIBUTES_LOG_LEVEL_NUM_KEY
      = some (.int (levelNum lvl)) :=
  getAttr_setAttr_same m ATTRIBUTES_LOG_LEVEL_NUM_KEY (.int (levelNum lvl))

theorem reconcile_idem (t : ReadableSpanDict) :
    set_error_level_and_status (set_error_level_and_status t) =
      set_error_level_and_status t := by
  by_cases h1 : (decide (t.status.status_code = .error) &&
      !hasKey t.attributes ATTRIBUTES_LOG_LEVEL_NUM_KEY) = true
  · have herr : t.status.status_code = .error := by
      simp only [Bool.and_eq_true, decide_eq_true_eq] at h1
      exact h1.1
    have hout : set_error_level_and_status t =
        { t with attributes := mergeAttrs t.attributes (log_level_attributes "error") } := by
      unfold set_error_level_and_status
      dsimp only
      rw [if_pos h1]
    rw [hout]
    unfold set_error_level_and_status
    dsimp only
    rw [if_neg (by
      simp only [Bool.and_eq_true, Bool.not_eq_true']
      rintro ⟨-, hk⟩
      rw [hasKey_eq_isSome, getAttr_merge_level] at hk
      simp at hk)]
    rw [if_neg (by simp [SpanStatus.is_unset, herr])]
  · by_cases h2 : t.status.is_unset = true
    · rcases hL : getAttr t.attributes ATTRIBUTES_LOG_LEVEL_NUM_KEY with _ | v
      · have hout : set_error_level_and_status t = t := by
          unfold set_error_level_and_status
          dsimp only
          rw [if_neg (by simpa using h1), if_pos h2, hL]
        rw [hout]
        exact hout
      · rcases v with str | n | b | l
        · have hout : set_error_level_and_status t = t := by
            unfold set_error_level_and_status
            dsimp only
            rw [if_neg (by simpa using h1), if_pos h2, hL]
          rw [hout]
          exact hout
        · by_cases hn : levelNum "error" ≤ n
          · have hout : set_error_level_and_status t =
                { t with status := ⟨.error, t.status.description⟩ } := by
              unfold set_error_level_and_status
              dsimp only
              rw [if_neg (by simpa using h1), if_pos h2, hL]
              dsimp only
              rw [if_pos hn]
            rw [hout]
            unfold set_error_level_and_status
            dsimp only
            rw [if_neg (by
              simp only [Bool.and_eq_true, Bool.not_eq_true']
              rintro ⟨-, hk⟩
              rw [hasKey_eq_isSome] at hk
              try dsimp only at hk
              rw [hL] at hk
              simp at hk)]
            rw [if_neg (by simp [SpanStatus.is_unset])]
          · have hout : set_error_level_and_status t = t := by
              unfold set_error_level_and_status
              dsimp only
              rw [if_neg (by simpa using h1), if_pos h2, hL]
              dsimp only
              rw [if_neg hn]
            rw [hout]
            exact hout
        · have hout : set_error_level_and_status t = t := by
            unfold set_error_level_and_status
            dsimp only
            rw [if_neg (by simpa using h1), if_pos h2, hL]
          rw [hout]
          exact hout
        · have hout : set_error_level_and_status t = t := by
            unfold set_error_level_and_status
            dsimp only
            rw [if_neg (by simpa using h1), if_pos h2, hL]
          rw [hout]
          exact hout
    · have hout : set_error_level_and_status t = t := by
        unfold set_error_level_and_status
        dsimp only
        rw [if_neg (by simpa using h1), if_neg (by simpa using h2)]
      rw [hout]
      exact hout

theorem is_asgi_false {sc : Option InstrumentationScope}
    (hscope : ∀ c, sc = some c →
      c.name ≠ "opentelemetry.instrumentation.asgi" ∧
      c.name ≠ "opentelemetry.instrumentation.starlette" ∧
      c.name ≠ "opentelemetry.instrumentation.fastapi") (name : String) :
    is_asgi_send_receive_span name sc = false := by
  unfold is_asgi_send_receive_span
  cases sc with
  | none => simp
  | some c =>
    obtain ⟨h1, h2, h3⟩ := hscope c rfl
    simp [h1, h2, h3]

theorem asgi_skip {t : ReadableSpanDict}
    (hscope : ∀ c, t.instrumentation_scope = some c →
      c.name ≠ "opentelemetry.instrumentation.asgi" ∧
      c.name ≠ "opentelemetry.instrumentation.starlette" ∧
      c.name ≠ "opentelemetry.instrumentation.fastapi") :
    tweak_asgi_send_receive_spans t = t := by
  unfold tweak_asgi_send_receive_spans
  dsimp only
  rw [if_neg (by rw [is_asgi_false hscope]; simp)]

theorem sql_skip {t : ReadableSpanDict}
    (hscope : ∀ c, t.instrumentation_scope = some c →
      c.name ≠ "opentelemetry.instrumentation.sqlalchemy") :
    tweak_sqlalchemy_connect_spans t = t := by
  unfold tweak_sqlalchemy_connect_spans
  dsimp only
  by_cases hn : t.name ≠ "connect"
  · rw [if_pos hn]
  · rw [if_neg hn]
    rcases hsc : t.instrumentation_scope with _ | c
    · rfl
    · dsimp only
      rw [if_pos (hscope c hsc)]

theorem summarize_skip {summarizer : Summarizer}
    (hsm : ∀ a m n, summarizer a m n = none) (t : ReadableSpanDict) :
    summarize_db_statement summarizer t = t := by
  unfold summarize_db_statement
  dsimp only
  rw [hsm]

/-- A qualifying ASGI send span whose event type contains a space after its
first dot: the ASGI tweak fires again on its own output. -/
def c3Rec : ReadableSpanDict :=
  { baseRec with
      name := "x http send"
      instrumentation_scope := some ⟨"opentelemetry.instrumentation.asgi"⟩
      attributes := [("type", .str "http.y http send"),
                     (ATTRIBUTES_MESSAGE_KEY, .str "x http send")] }

/-- **C3 counterexample**: the end-time rule sequence is not idempotent.
On a qualifying ASGI send span whose event type has a space after its first
dot, the name-extension suffix appended by the first application again ends
in a qualifying suffix and the rewritten message again equals the name, so
the ASGI tweak fires a second time. -/
theorem c3_counterexample :
    (onEndRules noSummary c3Rec).bind (onEndRules noSummary) ≠ onEndRules noSummary c3Rec := by
  decide

/-- **C3** (amended): applying the full end-time rule sequence twice yields
the same record as applying it once, provided the record's instrumentation
scope is none of the three ASGI transport scopes and not the SQLAlchemy
scope, the DB-statement summarizer never produces a summary, and the
attribute keys are duplicate-free.  (The unrestricted claim is refuted by
the counterexample above.) -/
theorem c3_rules_idempotent_restricted (summarizer : Summarizer)
    (hsm : ∀ a m n, summarizer a m n = none)
    (t : ReadableSpanDict)
    (hscope : ∀ c, t.instrumentation_scope = some c →
      c.name ≠ "opentelemetry.instrumentation.asgi" ∧
      c.name ≠ "opentelemetry.instrumentation.starlette" ∧
      c.name ≠ "opentelemetry.instrumentation.fastapi" ∧
      c.name ≠ "opentelemetry.instrumentation.sqlalchemy")
    (hnd : (t.attributes.map Prod.fst).Nodup) :
    (onEndRules summarizer t).bind (onEndRules summarizer) = onEndRules summarizer t := by
  have hA : ∀ c, t.instrumentation_scope = some c →
      c.name ≠ "opentelemetry.instrumentation.asgi" ∧
      c.name ≠ "opentelemetry.instrumentation.starlette" ∧
      c.name ≠ "opentelemetry.instrumentation.fastapi" :=
    fun c hc => ⟨(hscope c hc).1, (hscope c hc).2.1, (hscope c hc).2.2.1⟩
  have hS : ∀ c, t.instrumentation_scope = some c →
      c.name ≠ "opentelemetry.instrumentation.sqlalchemy" :=
    fun c hc => (hscope c hc).2.2.2
  have e1 : onEndRules summarizer t =
      match tweak_http_spans t with
      | .error e => .error e
      | .ok s3 => .ok (set_error_level_and_status s3) := by
    unfold onEndRules
    dsimp only
    rw [asgi_skip hA, sql_skip hS]
    rcases h3 : tweak_http_spans t with e | s3
    · rfl
    · dsimp only
      rw [summarize_skip hsm]
  rw [e1]
  rcases h3 : tweak_http_spans t with e | s3
  · rfl
  · show onEndRules summarizer (set_error_level_and_status s3) =
      .ok (set_error_level_and_status s3)
    have hFr : s3.instrumentation_scope = t.instrumentation_scope :=
      (sameFrame_http h3).2.2.2.2.1
    have hFr1 : (set_error_level_and_status s3).instrumentation_scope =
        t.instrumentation_scope := by
      rw [(sameFrame_reconcile s3).2.2.2.2.1, hFr]
    have hA1 : ∀ c, (set_error_level_and_status s3).instrumentation_scope = some c →
        c.name ≠ "opentelemetry.instrumentation.asgi" ∧
        c.name ≠ "opentelemetry.instrumentation.starlette" ∧
        c.name ≠ "opentelemetry.instrumentation.fastapi" :=
      fun c hc => hA c (by rw [← hFr1]; exact hc)
    have hS1 : ∀ c, (set_error_level_and_status s3).instrumentation_scope = some c →
        c.name ≠ "opentelemetry.instrumentation.sqlalchemy" :=
      fun c hc => hS c (by rw [← hFr1]; exact hc)
    have hnd3 : (s3.attributes.map Prod.fst).Nodup := nodup_http h3 hnd
    have hnd1 : ((set_error_level_and_status s3).attributes.map Prod.fst).Nodup :=
      nodup_reconcile s3 hnd3
    have hhttp1 : tweak_http_spans (set_error_level_and_status s3) =
        .ok (set_error_level_and_status s3) :=
      tweak_http_stable h3 (reconcile_viewEq s3) hnd1
    unfold onEndRules
    dsimp only
    rw [asgi_skip hA1, sql_skip hS1, hhttp1]
    dsimp only
    rw [summarize_skip hsm, reconcile_idem]

/-- Witness for C3 at a concrete record with no instrumentation scope. -/
theorem c3_rules_idempotent_restricted_witness :
    (onEndRules noSummary baseRec).bind (onEndRules noSummary) = onEndRules noSummary baseRec :=
  c3_rules_idempotent_restricted noSummary (fun _ _ _ => rfl) baseRec
    (fun c hc => by simp [baseRec] at hc) (by decide)
